import Mathlib

/-!
Verification of the edit-intent resolution pipeline of the Derived repository.

The development shallowly embeds the three core source modules:

* `src/lib/edit-intent-analyzer.ts` (`analyzeEditIntent` and its file resolvers),
* `src/lib/file-search-executor.ts` (`executeSearchPlan`, `determineComponentType`,
  `determineElementType`, `selectTargetFile`).

JavaScript strings are modelled as Lean `String`s (the inputs of interest are
ASCII), JavaScript `Record` objects as insertion-ordered association lists,
JavaScript numbers used for confidence scores as exact rationals, and
JavaScript regular expressions by an explicit abstract syntax tree together
with a fuel-driven backtracking matcher that reproduces the leftmost-match,
ordered-alternation, greedy/lazy-quantifier semantics of the JS engine.  The
fuel supplied by every entry point exceeds the maximal recursion depth of the
matcher, so it never runs out on the inputs the theorems evaluate.
-/

/-! ### JavaScript string primitives -/

/-- Decides whether `needle` occurs as a contiguous sublist of `hay`
(the semantics of `String.prototype.includes`). -/
def charsContains (needle : List Char) : List Char → Bool
  | [] => needle.isEmpty
  | c :: rest => List.isPrefixOf needle (c :: rest) || charsContains needle rest

/-- JavaScript `haystack.includes(needle)` (case-sensitive substring test). -/
def jsIncludes (haystack needle : String) : Bool :=
  charsContains needle.data haystack.data

/-- JavaScript whitespace (ASCII portion), used for `\s` and for `trim`. -/
def isSpaceChar (c : Char) : Bool :=
  c == ' ' || c == '\t' || c == '\n' || c == '\r' || c == Char.ofNat 11 || c == Char.ofNat 12

/-- JavaScript `s.toLowerCase()` (character-wise; the inputs are ASCII). -/
def jsToLower (s : String) : String := String.mk (s.data.map Char.toLower)

/-- JavaScript `s.startsWith(pre)`. -/
def jsStartsWith (s pre : String) : Bool := List.isPrefixOf pre.data s.data

/-- JavaScript `s.endsWith(suf)`. -/
def jsEndsWith (s suf : String) : Bool := List.isSuffixOf suf.data s.data

/-- JavaScript `s.trim()`: strip leading and trailing whitespace. -/
def jsTrim (s : String) : String :=
  String.mk (((s.data.dropWhile isSpaceChar).reverse.dropWhile isSpaceChar).reverse)

/-- Worker for `jsSplitChar`. -/
def splitOnCharAux (c : Char) : List Char → List Char → List String
  | [], acc => [String.mk acc.reverse]
  | d :: ds, acc =>
    if d == c then String.mk acc.reverse :: splitOnCharAux c ds []
    else splitOnCharAux c ds (d :: acc)

/-- JavaScript `s.split(c)` for a one-character separator. -/
def jsSplitChar (s : String) (c : Char) : List String := splitOnCharAux c s.data []

/-- JavaScript `parts.join(sep)`. -/
def jsJoin (sep : String) (parts : List String) : String :=
  String.mk (List.intercalate sep.data (parts.map String.data))

/-- Stable insertion: the element goes before the first entry `y` with
`le x y`, hence after any earlier equivalent entries. -/
def stableInsert {α : Type} (le : α → α → Bool) (x : α) : List α → List α
  | [] => [x]
  | y :: ys => if le x y then x :: y :: ys else y :: stableInsert le x ys

/-- Stable insertion sort.  `Array.prototype.sort` is required to be stable
(ES2019); with a consistent comparator every stable sort produces the same
output, so this structurally recursive sort models the source's `sort`
calls (`le a b` standing for `comparator(a, b) <= 0`). -/
def stableSort {α : Type} (le : α → α → Bool) : List α → List α
  | [] => []
  | x :: xs => stableInsert le x (stableSort le xs)

/-- The apostrophe character, referenced by code point to keep source quoting simple. -/
def apos : Char := Char.ofNat 39

/-! ### Regular-expression engine

JavaScript regexes are embedded as an AST.  All regex literals of the
analyzed sources carry the `i` flag or contain no cased literals, so the
matcher compares literal characters case-insensitively throughout. -/

/-- Items of a bracket character class `[...]`. -/
inductive ClsItem where
  | ch (c : Char)
  | range (lo hi : Char)
  | wItem
  | sItem
  | dItem
  deriving Repr, DecidableEq

/-- Single-character matchers. -/
inductive CharCls where
  | lit (c : Char)
  | wordc
  | spacec
  | digitc
  | anyc
  | set (neg : Bool) (items : List ClsItem)
  deriving Repr, DecidableEq

/-- Regex abstract syntax.  `grp` is a numbered capturing group, `nla` a
negative lookahead `(?! ...)`, `wordB` the `\b` assertion, `bol`/`eol` the
`^`/`$` anchors (no `m` flag anywhere in the sources). -/
inductive Regex where
  | eps
  | cls (c : CharCls)
  | seq (a b : Regex)
  | alt (a b : Regex)
  | star (a : Regex)
  | lazyStar (a : Regex)
  | opt (a : Regex)
  | nla (a : Regex)
  | grp (n : Nat) (a : Regex)
  | wordB
  | notWordB
  | bol
  | eol
  deriving Repr, DecidableEq

/-- JavaScript word characters `[A-Za-z0-9_]`. -/
def isWordChar (c : Char) : Bool := c.isAlphanum || c == '_'

/-- Membership of a character in one class item (case-insensitive, matching
the `i` flag used by every pattern of the sources). -/
def clsItemMatches (it : ClsItem) (d : Char) : Bool :=
  match it with
  | .ch c => c.toLower == d.toLower
  | .range lo hi => (lo ≤ d && d ≤ hi) || (lo ≤ d.toLower && d.toLower ≤ hi) ||
      (lo ≤ d.toUpper && d.toUpper ≤ hi)
  | .wItem => isWordChar d
  | .sItem => isSpaceChar d
  | .dItem => d.isDigit

/-- Membership of a character in a `CharCls`. -/
def clsMatches (c : CharCls) (d : Char) : Bool :=
  match c with
  | .lit c => c.toLower == d.toLower
  | .wordc => isWordChar d
  | .spacec => isSpaceChar d
  | .digitc => d.isDigit
  | .anyc => !(d == '\n' || d == '\r')
  | .set neg items =>
    let m := items.any (fun it => clsItemMatches it d)
    if neg then !m else m

/-- Matcher state: the character immediately before the current position (for
`\b` and `^`), the remaining input, and the captured groups. -/
structure MSt where
  prev : Option Char
  rest : List Char
  caps : List (Nat × String)
  deriving Repr

/-- Record a capture, overwriting any earlier value of the same group. -/
def setCap (caps : List (Nat × String)) (n : Nat) (s : String) : List (Nat × String) :=
  (n, s) :: caps.filter (fun x => x.1 ≠ n)

/-- Read a captured group. -/
def capGet (st : MSt) (n : Nat) : String :=
  ((st.caps.find? (fun x => x.1 == n)).map (·.2)).getD ""

/-- Does the head position of `st` sit on a word boundary? -/
def atWordBoundary (st : MSt) : Bool :=
  let pw := match st.prev with | some c => isWordChar c | none => false
  let nw := match st.rest with | c :: _ => isWordChar c | [] => false
  pw != nw

/-- Backtracking matcher.  `mrun fuel r st` returns, in the priority order of
the JavaScript engine (ordered alternation, greedy quantifiers longest-first,
lazy quantifiers shortest-first, star iterations required to consume input),
the list of states reachable by matching `r` from `st`.  The fuel only bounds
the recursion depth; entry points supply enough for it never to be exhausted. -/
def mrun : Nat → Regex → MSt → List MSt
  | 0, _, _ => []
  | f + 1, r, st =>
    match r with
    | .eps => [st]
    | .cls c =>
      match st.rest with
      | [] => []
      | d :: ds => if clsMatches c d then [⟨some d, ds, st.caps⟩] else []
    | .seq a b => (mrun f a st).flatMap (fun st' => mrun f b st')
    | .alt a b => mrun f a st ++ mrun f b st
    | .star a =>
      ((mrun f a st).filter (fun st' => st'.rest.length < st.rest.length)).flatMap
        (fun st' => mrun f (.star a) st') ++ [st]
    | .lazyStar a =>
      st :: ((mrun f a st).filter (fun st' => st'.rest.length < st.rest.length)).flatMap
        (fun st' => mrun f (.lazyStar a) st')
    | .opt a => mrun f a st ++ [st]
    | .nla a => if (mrun f a st).isEmpty then [st] else []
    | .grp n a =>
      (mrun f a st).map (fun st' =>
        ⟨st'.prev, st'.rest, setCap st'.caps n
          (String.mk (st.rest.take (st.rest.length - st'.rest.length)))⟩)
    | .wordB => if atWordBoundary st then [st] else []
    | .notWordB => if atWordBoundary st then [] else [st]
    | .bol => if st.prev.isNone then [st] else []
    | .eol => if st.rest.isEmpty then [st] else []

/-- Structural size of a regex, used to compute a sufficient fuel. -/
def rsize : Regex → Nat
  | .eps | .wordB | .notWordB | .bol | .eol => 1
  | .cls _ => 1
  | .seq a b | .alt a b => rsize a + rsize b + 1
  | .star a | .lazyStar a | .opt a | .nla a | .grp _ a => rsize a + 1

/-- Try to match `r` at the current position; first state in priority order. -/
def tryAt (r : Regex) (prev : Option Char) (cs : List Char) : Option MSt :=
  (mrun ((rsize r + 2) * (cs.length + 2)) r ⟨prev, cs, []⟩).head?

/-- Scan left to right for the first position where `r` matches; returns the
match state together with the suffix at which the match starts. -/
def searchFrom (r : Regex) (prev : Option Char) : List Char → Option (MSt × List Char)
  | [] =>
    match tryAt r prev [] with
    | some st => some (st, [])
    | none => none
  | c :: cs =>
    match tryAt r prev (c :: cs) with
    | some st => some (st, c :: cs)
    | none => searchFrom r (some c) cs

/-- First match of `r` anywhere in `s` (JavaScript `s.match(r)` without `g`). -/
def jsFirstMatch (r : Regex) (s : String) : Option MSt :=
  (searchFrom r none s.data).map (·.1)

/-- JavaScript `r.test(s)` / truthiness of `s.match(r)`. -/
def jsTest (r : Regex) (s : String) : Bool :=
  (searchFrom r none s.data).isSome

/-- Worker for `jsMatchAll`: collect the non-overlapping matches left to
right, continuing after the end of each match (one character further for an
empty match), as the JavaScript global-flag scan does. -/
def jsMatchAllAux (r : Regex) : Nat → Option Char → List Char → List String
  | 0, _, _ => []
  | f + 1, prev, cs =>
    match searchFrom r prev cs with
    | none => []
    | some (st, atCs) =>
      let consumed := atCs.length - st.rest.length
      let matchStr := String.mk (atCs.take consumed)
      if consumed == 0 then
        match atCs with
        | [] => [matchStr]
        | c :: cs' => matchStr :: jsMatchAllAux r f (some c) cs'
      else matchStr :: jsMatchAllAux r f st.prev st.rest

/-- JavaScript `s.match(r)` with the `g` flag: the list of matched substrings. -/
def jsMatchAll (r : Regex) (s : String) : List String :=
  jsMatchAllAux r (s.length + 1) none s.data

/-- Worker for `jsReplaceAll`. -/
def jsReplaceAllAux (r : Regex) : Nat → Option Char → List Char → List Char
  | 0, _, cs => cs
  | f + 1, prev, cs =>
    match tryAt r prev cs with
    | some st =>
      let consumed := cs.length - st.rest.length
      if consumed == 0 then
        match cs with
        | [] => []
        | c :: cs' => c :: jsReplaceAllAux r f (some c) cs'
      else jsReplaceAllAux r f st.prev st.rest
    | none =>
      match cs with
      | [] => []
      | c :: cs' => c :: jsReplaceAllAux r f (some c) cs'

/-- JavaScript `s.replace(r, '')` with the `g` flag: delete every match. -/
def jsReplaceAll (r : Regex) (s : String) : String :=
  String.mk (jsReplaceAllAux r (s.length + 1) none s.data)

/-! Smart constructors used to transcribe the source regex literals. -/

/-- Literal character. -/
def litR (c : Char) : Regex := .cls (.lit c)

/-- Sequence of literal characters spelling `s`. -/
def rstr (s : String) : Regex :=
  s.data.foldr (fun c r => .seq (litR c) r) .eps

/-- Concatenation of a list of regexes. -/
def rcat : List Regex → Regex
  | [] => .eps
  | [r] => r
  | r :: rs => .seq r (rcat rs)

/-- Ordered alternation of a list of regexes. -/
def ralts : List Regex → Regex
  | [] => .eps
  | [r] => r
  | r :: rs => .alt r (ralts rs)

/-- Greedy `+`. -/
def rplus (a : Regex) : Regex := .seq a (.star a)

/-- Lazy `+?`. -/
def lazyPlus (a : Regex) : Regex := .seq a (.lazyStar a)

/-- Alternation of literal words. -/
def words1 (ws : List String) : Regex := ralts (ws.map rstr)

/-- Shorthand for `\w+`. -/
def wp : Regex := rplus (.cls .wordc)

/-- Shorthand for `\s+`. -/
def sp : Regex := rplus (.cls .spacec)

/-- Shorthand for `\s*`. -/
def spStar : Regex := .star (.cls .spacec)

/-- Shorthand for `.*`. -/
def dotStarR : Regex := .star (.cls .anyc)

/-- Shorthand for the frequent `(the\s+)?` prefix. -/
def theOpt : Regex := .opt (rcat [rstr "the", sp])

/-- Shorthand for `(a\s+)?` / `(?:a\s+)?`. -/
def aOpt : Regex := .opt (rcat [rstr "a", sp])

/-! ### Data model of `@/types/file-manifest`

Modelled from the spec: the type declarations of `@/types/file-manifest`
(`FileManifest`, `EditType`, `EditIntent`, `IntentPattern`) are not part of
the provided sources; their shape is taken from spec section 3 and from how
`edit-intent-analyzer.ts` reads them.  Fields the analyzer never touches
(`componentTree`, `routes`, the per-file `type` tag) are omitted. -/

/-- Parsed component metadata attached to a file record. -/
structure ComponentInfo where
  name : String
  childComponents : List String
  deriving Repr, DecidableEq

/-- One file record of the manifest. -/
structure FileInfo where
  content : String
  lastModified : Int
  componentInfo : Option ComponentInfo
  deriving Repr, DecidableEq

/-- The project manifest.  `files` is the insertion-ordered `Record` of
path/record pairs. -/
structure FileManifest where
  entryPoint : String
  files : List (String × FileInfo)
  styleFiles : List String
  deriving Repr, DecidableEq

/-- The closed edit-type enumeration. -/
inductive EditType where
  | UPDATE_COMPONENT
  | ADD_FEATURE
  | FIX_ISSUE
  | UPDATE_STYLE
  | REFACTOR
  | FULL_REBUILD
  | ADD_DEPENDENCY
  deriving Repr, DecidableEq

/-- Output of the intent classifier.  JavaScript float confidences are
modelled as exact rationals. -/
structure EditIntent where
  type : EditType
  targetFiles : List String
  confidence : ℚ
  description : String
  suggestedContext : List String
  deriving Repr, DecidableEq

/-- One pattern group of the classifier table. -/
structure IntentPattern where
  patterns : List Regex
  type : EditType
  fileResolver : String → FileManifest → List String

/-! ### edit-intent-analyzer.ts: helper functions -/

/-- Lowercased basename: `path.split('/').pop()?.toLowerCase() || ''`. -/
def basenameLower (path : String) : String :=
  jsToLower (((jsSplitChar path '/').getLast?).getD "")

/-- Stopword regex of `extractComponentNames`:
`\b(the|a|an|in|on|to|from|update|change|modify|edit|fix|make)\b` with `gi`. -/
def stopwordRe : Regex :=
  rcat [.wordB,
    words1 ["the", "a", "an", "in", "on", "to", "from", "update", "change", "modify",
      "edit", "fix", "make"],
    .wordB]

/-- Word-run regex `\b\w+\b` with `g`. -/
def wordRunRe : Regex := rcat [.wordB, wp, .wordB]

/-- Translation of `extractComponentNames` (edit-intent-analyzer.ts lines
410-428): strip stopwords, lowercase, extract word runs, keep those longer
than two characters. -/
def extractComponentNames (prompt : String) : List String :=
  let cleanPrompt := jsToLower (jsReplaceAll stopwordRe prompt)
  let wordRuns := jsMatchAll wordRunRe cleanPrompt
  wordRuns.filter (fun w => w.length > 2)

/-- First-pass match of `findComponentFiles`: does some extracted word occur
in the lowercased basename or in the record's parsed component name? -/
def matchesComponentWord (fileName : String) (ci : Option ComponentInfo) (w : String) : Bool :=
  jsIncludes fileName w ||
    (match ci with
     | some c => jsIncludes (jsToLower c.name) w
     | none => false)

/-- First pass of `findComponentFiles` (lines 180-192): collect, in manifest
order, every path whose basename or component name contains some word. -/
def findComponentFilesPass1 (componentWords : List String)
    (entries : List (String × FileInfo)) : List String :=
  entries.filterMap (fun e =>
    if componentWords.any (fun w => matchesComponentWord (basenameLower e.1) e.2.componentInfo w)
    then some e.1 else none)

/-- The fixed common-UI-element keyword list of `findComponentFiles`. -/
def uiElements : List String :=
  ["header", "footer", "nav", "sidebar", "button", "card", "modal", "hero", "banner",
   "about", "services", "features", "testimonials", "gallery", "contact", "team", "pricing"]

/-- Exact UI-element file lookup: basename contains `element + "."` or equals
the element; returns immediately with that single path. -/
def uiElementExact (el : String) (entries : List (String × FileInfo)) : Option String :=
  (entries.find? (fun e =>
    jsIncludes (basenameLower e.1) (el ++ ".") || basenameLower e.1 == el)).map (·.1)

/-- Partial UI-element file lookup: basename contains the element. -/
def uiElementPartial (el : String) (entries : List (String × FileInfo)) : Option String :=
  (entries.find? (fun e => jsIncludes (basenameLower e.1) el)).map (·.1)

/-- UI-element fallback loop of `findComponentFiles` (lines 195-221): for the
first element mentioned in the prompt for which some file matches, return
that single file (exact basename matches tried before looser ones). -/
def uiElementLookup (lowerPrompt : String) (entries : List (String × FileInfo)) :
    Option String :=
  uiElements.findSome? (fun el =>
    if jsIncludes lowerPrompt el then
      (uiElementExact el entries).orElse (fun _ => uiElementPartial el entries)
    else none)

/-- Tail of `findComponentFiles` (lines 194-229): when the first pass found
nothing the UI-element lookup result (if any) is the answer, else the entry
point; when it found files, only the first is returned (`return [files[0]]`
for more than one and `files` itself, a singleton, for exactly one). -/
def findComponentFilesFinalize (entryPoint : String) (files1 : List String)
    (ui : Option String) : List String :=
  if files1.isEmpty then
    match ui with
    | some path => [path]
    | none => [entryPoint]
  else
    match files1 with
    | [] => [entryPoint]
    | x :: _ => [x]

/-- Translation of `findComponentFiles` (lines 171-230).  When the first pass
finds several files only the first is kept (single-file discipline); when it
finds none the UI-element fallback is tried, and finally `[entryPoint]`.
(The source only runs the UI-element loop when the first pass is empty;
computing its pure result unconditionally is observationally the same.) -/
def findComponentFiles (prompt : String) (manifest : FileManifest) : List String :=
  let componentWords := extractComponentNames prompt
  let files1 := findComponentFilesPass1 componentWords manifest.files
  findComponentFilesFinalize manifest.entryPoint files1
    (uiElementLookup (jsToLower prompt) manifest.files)

/-- Quoted-string regex of `findComponentByContent`: `/["']([^"']+)["']/g`. -/
def quotedRe : Regex :=
  rcat [ralts [litR '"', litR apos],
    .grp 1 (rplus (.cls (.set true [.ch '"', .ch apos]))),
    ralts [litR '"', litR apos]]

/-- Quote-stripping replace `s.replace(/["']/g, '')`. -/
def stripQuotes (s : String) : String :=
  String.mk (s.data.filter (fun c => !(c == '"' || c == apos)))

/-- Action-phrase regex of `findComponentByContent`:
`/(?:remove|delete|hide)\s+(?:the\s+)?(.+?)(?:\s+button|\s+link|\s+text|\s+element|\s+section|$)/i`. -/
def actionRe : Regex :=
  rcat [ralts [rstr "remove", rstr "delete", rstr "hide"], sp, theOpt,
    .grp 1 (lazyPlus (.cls .anyc)),
    ralts [rcat [sp, rstr "button"], rcat [sp, rstr "link"], rcat [sp, rstr "text"],
      rcat [sp, rstr "element"], rcat [sp, rstr "section"], .eol]]

/-- Search terms gathered by `findComponentByContent` (lines 367-375):
quoted substrings with their quotes stripped, plus, when the
remove/delete/hide phrase matches, its trimmed first capture. -/
def componentContentTerms (prompt : String) : List String :=
  let searchTerms0 := (jsMatchAll quotedRe prompt).map stripQuotes
  match jsFirstMatch actionRe prompt with
  | some st => searchTerms0 ++ [jsTrim (capGet st 1)]
  | none => searchTerms0

/-- Content scan of `findComponentByContent` (lines 379-395): component
files (path containing `.jsx`/`.tsx`) whose lowercased content contains some
term; skipped entirely when there are no terms. -/
def contentMatchFiles (searchTerms : List String)
    (entries : List (String × FileInfo)) : List String :=
  if searchTerms.isEmpty then []
  else
    entries.filterMap (fun e =>
      if !(jsIncludes e.1 ".jsx") && !(jsIncludes e.1 ".tsx") then none
      else if searchTerms.any (fun t => jsIncludes (jsToLower e.2.content) (jsToLower t))
      then some e.1 else none)

/-- Translation of `findComponentByContent` (lines 361-405): search component
files for quoted strings or the remove/delete/hide object phrase; return the
first content match, falling back to `findComponentFiles`. -/
def findComponentByContent (prompt : String) (manifest : FileManifest) : List String :=
  match contentMatchFiles (componentContentTerms prompt) manifest.files with
  | [] => findComponentFiles prompt manifest
  | x :: _ => [x]

/-- Location-phrase regex of `findFeatureInsertionPoints`:
`/(?:in|to|on|inside)\s+(?:the\s+)?(\w+)/i`. -/
def locationRe : Regex :=
  rcat [ralts [rstr "in", rstr "to", rstr "on", rstr "inside"], sp, theOpt, .grp 1 wp]

/-- Deduplication with first-occurrence order, as `[...new Set(files)]`. -/
def dedupFirstAux (seen : List String) : List String → List String
  | [] => []
  | x :: xs =>
    if seen.contains x then dedupFirstAux seen xs
    else x :: dedupFirstAux (x :: seen) xs

/-- Deduplicate a list keeping the first occurrence of each element. -/
def dedupFirst (l : List String) : List String := dedupFirstAux [] l

/-- Translation of `findFeatureInsertionPoints` (lines 235-286). -/
def findFeatureInsertionPoints (prompt : String) (manifest : FileManifest) : List String :=
  let lowerPrompt := jsToLower prompt
  let pageFiles :=
    if jsIncludes lowerPrompt "page" then
      (manifest.files.filterMap (fun e =>
        if jsIncludes e.2.content "Route" || jsIncludes e.2.content "createBrowserRouter" ||
            jsIncludes e.1 "router" || jsIncludes e.1 "routes"
        then some e.1 else none)) ++
      (if manifest.entryPoint ≠ "" then [manifest.entryPoint] else [])
    else []
  let files2 :=
    if jsIncludes lowerPrompt "component" || jsIncludes lowerPrompt "section" ||
        jsIncludes lowerPrompt "add" || jsIncludes lowerPrompt "create" then
      match jsFirstMatch locationRe prompt with
      | some st => pageFiles ++ findComponentFiles (capGet st 1) manifest
      | none =>
        let componentWords := extractComponentNames prompt
        let rel := componentWords.flatMap (fun w =>
          let relatedFiles := findComponentFiles w manifest
          match relatedFiles with
          | [] => []
          | x :: _ => if x ≠ manifest.entryPoint then relatedFiles else [])
        let f := pageFiles ++ rel
        if f.isEmpty then [manifest.entryPoint] else f
    else pageFiles
  dedupFirst files2

/-- Error-keyword regex of `findProblemFiles`:
`/error|bug|issue|problem|broken|not working/i`. -/
def problemRe : Regex :=
  ralts [rstr "error", rstr "bug", rstr "issue", rstr "problem", rstr "broken",
    rstr "not working"]

/-- Translation of `findProblemFiles` (lines 291-309): on error language take
the five most recently modified files (stable descending sort), then union
with the component-name resolver. -/
def findProblemFiles (prompt : String) (manifest : FileManifest) : List String :=
  let errFiles :=
    if jsTest problemRe prompt then
      ((stableSort (fun a b => decide (b.2.lastModified ≤ a.2.lastModified))
          manifest.files).take 5).map (·.1)
    else []
  dedupFirst (errFiles ++ findComponentFiles prompt manifest)

/-- Translation of `findStyleFiles` (lines 314-331). -/
def findStyleFiles (prompt : String) (manifest : FileManifest) : List String :=
  manifest.styleFiles ++
    (match (manifest.files.map (·.1)).find? (fun p => jsIncludes p "tailwind.config") with
     | some p => [p]
     | none => []) ++
    findComponentFiles prompt manifest

/-- Translation of `findRefactorTargets` (lines 336-339). -/
def findRefactorTargets (prompt : String) (manifest : FileManifest) : List String :=
  findComponentFiles prompt manifest

/-- Translation of `findPackageFiles` (lines 344-356). -/
def findPackageFiles (manifest : FileManifest) : List String :=
  (manifest.files.map (·.1)).filter (fun p =>
    jsEndsWith p "package.json" || jsEndsWith p "vite.config.js" || jsEndsWith p "tsconfig.json")

/-- Translation of `getSuggestedContext` (lines 433-440): every manifest path
not among the target files. -/
def getSuggestedContext (targetFiles : List String) (manifest : FileManifest) : List String :=
  (manifest.files.map (·.1)).filter (fun f => !(targetFiles.contains f))

/-- Translation of `calculateConfidence` (lines 501-527). -/
def calculateConfidence (prompt : String) (pattern : IntentPattern)
    (targetFiles : List String) : ℚ :=
  let c1 : ℚ := 1/2
  let c2 := c1 + (match targetFiles with
    | [] => 0
    | x :: _ => if x ≠ "" then (1 : ℚ)/5 else 0)
  let c3 := c2 + (if (jsSplitChar prompt ' ').length > 5 then (1 : ℚ)/10 else 0)
  let c4 := c3 + (if pattern.patterns.any (fun r => jsTest r prompt) then (1 : ℚ)/5 else 0)
  min c4 1

/-- Translation of `generateDescription` (lines 532-557). -/
def generateDescription (type : EditType) (targetFiles : List String) : String :=
  let fileNames := jsJoin ", "
    (targetFiles.map (fun f => ((jsSplitChar f '/').getLast?).getD ""))
  match type with
  | .UPDATE_COMPONENT => "Updating component(s): " ++ fileNames
  | .ADD_FEATURE => "Adding new feature to: " ++ fileNames
  | .FIX_ISSUE => "Fixing issue in: " ++ fileNames
  | .UPDATE_STYLE => "Updating styles in: " ++ fileNames
  | .REFACTOR => "Refactoring: " ++ fileNames
  | .FULL_REBUILD => "Rebuilding entire application"
  | .ADD_DEPENDENCY => "Adding new dependency"

/-! ### edit-intent-analyzer.ts: the pattern table (lines 25-132)

Each regex literal of the source is transcribed into the `Regex` AST; the
original literal is quoted in the comment above its transcription. -/

/-- Group `UPDATE_STYLE` (lines 26-41). -/
def updateStylePatterns : List Regex :=
  [ -- update\s+(the\s+)?(\w+)\s+(component|section|page)\s+(style|styling|appearance|color|theme)
   rcat [rstr "update", sp, theOpt, wp, sp, words1 ["component", "section", "page"], sp,
     words1 ["style", "styling", "appearance", "color", "theme"]],
   -- change\s+(the\s+)?(\w+)\s+(background|color|theme|styling)
   rcat [rstr "change", sp, theOpt, wp, sp, words1 ["background", "color", "theme", "styling"]],
   -- make\s+(the\s+)?(\w+)\s+(blue|red|green|dark|light|responsive)
   rcat [rstr "make", sp, theOpt, wp, sp,
     words1 ["blue", "red", "green", "dark", "light", "responsive"]],
   -- modify\s+(the\s+)?(\w+)\s+(layout|grid|flex|design)
   rcat [rstr "modify", sp, theOpt, wp, sp, words1 ["layout", "grid", "flex", "design"]],
   -- update\s+(the\s+)?(\w+)\s+(to\s+)?(be\s+)?responsive
   rcat [rstr "update", sp, theOpt, wp, sp, .opt (rcat [rstr "to", sp]),
     .opt (rcat [rstr "be", sp]), rstr "responsive"],
   -- change\s+.*\s+(bg-|text-|border-|p-|m-|flex|grid)
   rcat [rstr "change", sp, dotStarR, sp,
     words1 ["bg-", "text-", "border-", "p-", "m-", "flex", "grid"]],
   -- add\s+(hover|focus|active|transition|animation)\s+effects?
   rcat [rstr "add", sp, words1 ["hover", "focus", "active", "transition", "animation"], sp,
     rstr "effect", .opt (rstr "s")],
   -- make\s+.*\s+(mobile|desktop|tablet)\s+(friendly|responsive)
   rcat [rstr "make", sp, dotStarR, sp, words1 ["mobile", "desktop", "tablet"], sp,
     words1 ["friendly", "responsive"]]]

/-- Group `UPDATE_COMPONENT` (lines 42-59). -/
def updateComponentPatterns : List Regex :=
  [ -- update\s+(the\s+)?(\w+)\s+(component|section|page)(?!\s+(style|styling|color|theme))
   rcat [rstr "update", sp, theOpt, wp, sp, words1 ["component", "section", "page"],
     .nla (rcat [sp, words1 ["style", "styling", "color", "theme"]])],
   -- change\s+(the\s+)?(\w+)\s+(functionality|behavior|logic)
   rcat [rstr "change", sp, theOpt, wp, sp, words1 ["functionality", "behavior", "logic"]],
   -- modify\s+(the\s+)?(\w+)\s+(props|state|hooks)
   rcat [rstr "modify", sp, theOpt, wp, sp, words1 ["props", "state", "hooks"]],
   -- edit\s+(the\s+)?(\w+)(?!\s+(style|color|theme))
   rcat [rstr "edit", sp, theOpt, wp, .nla (rcat [sp, words1 ["style", "color", "theme"]])],
   -- fix\s+(the\s+)?(\w+)\s+(component|logic|functionality)
   rcat [rstr "fix", sp, theOpt, wp, sp, words1 ["component", "logic", "functionality"]],
   -- remove\s+.*\s+(button|link|text|element|section|component)
   rcat [rstr "remove", sp, dotStarR, sp,
     words1 ["button", "link", "text", "element", "section", "component"]],
   -- delete\s+.*\s+(button|link|text|element|section|component)
   rcat [rstr "delete", sp, dotStarR, sp,
     words1 ["button", "link", "text", "element", "section", "component"]],
   -- hide\s+.*\s+(button|link|text|element|section|component)
   rcat [rstr "hide", sp, dotStarR, sp,
     words1 ["button", "link", "text", "element", "section", "component"]],
   -- replace\s+.*\s+(text|content|element)
   rcat [rstr "replace", sp, dotStarR, sp, words1 ["text", "content", "element"]],
   -- change\s+.*\s+(text|content|label|title)\s+to
   rcat [rstr "change", sp, dotStarR, sp, words1 ["text", "content", "label", "title"], sp,
     rstr "to"]]

/-- Group `ADD_FEATURE` (lines 60-76). -/
def addFeaturePatterns : List Regex :=
  [ -- add\s+(a\s+)?new\s+(\w+)\s+(page|section|feature|component)
   rcat [rstr "add", sp, aOpt, rstr "new", sp, wp, sp,
     words1 ["page", "section", "feature", "component"]],
   -- create\s+(a\s+)?(\w+)\s+(page|section|feature|component)
   rcat [rstr "create", sp, aOpt, wp, sp, words1 ["page", "section", "feature", "component"]],
   -- implement\s+(a\s+)?(\w+)\s+(page|section|feature|component)
   rcat [rstr "implement", sp, aOpt, wp, sp, words1 ["page", "section", "feature", "component"]],
   -- build\s+(a\s+)?(\w+)\s+(page|section|feature|component)
   rcat [rstr "build", sp, aOpt, wp, sp, words1 ["page", "section", "feature", "component"]],
   -- add\s+(\w+)\s+to\s+(?:the\s+)?(\w+)
   rcat [rstr "add", sp, wp, sp, rstr "to", sp, theOpt, wp],
   -- include\s+(?:a\s+)?(\w+)\s+(component|section|feature)
   rcat [rstr "include", sp, aOpt, wp, sp, words1 ["component", "section", "feature"]],
   -- add\s+(state|useState|useEffect|useMemo|useCallback)
   rcat [rstr "add", sp, words1 ["state", "useState", "useEffect", "useMemo", "useCallback"]],
   -- implement\s+(routing|navigation|form\s+handling)
   rcat [rstr "implement", sp,
     ralts [rstr "routing", rstr "navigation", rcat [rstr "form", sp, rstr "handling"]]],
   -- create\s+(responsive|mobile|desktop)\s+(layout|design)
   rcat [rstr "create", sp, words1 ["responsive", "mobile", "desktop"], sp,
     words1 ["layout", "design"]]]

/-- Group `FIX_ISSUE` (lines 77-92). -/
def fixIssuePatterns : List Regex :=
  [ -- fix\s+(the\s+)?(\w+|\w+\s+\w+)(?!\s+(styling|style|color|theme))
   rcat [rstr "fix", sp, theOpt, ralts [wp, rcat [wp, sp, wp]],
     .nla (rcat [sp, words1 ["styling", "style", "color", "theme"]])],
   -- resolve\s+(the\s+)?(error|issue|bug|problem)
   rcat [rstr "resolve", sp, theOpt, words1 ["error", "issue", "bug", "problem"]],
   -- debug\s+(the\s+)?(\w+)
   rcat [rstr "debug", sp, theOpt, wp],
   -- repair\s+(the\s+)?(\w+)
   rcat [rstr "repair", sp, theOpt, wp],
   -- correct\s+(the\s+)?(\w+)
   rcat [rstr "correct", sp, theOpt, wp],
   -- optimize\s+(the\s+)?(\w+)
   rcat [rstr "optimize", sp, theOpt, wp],
   -- improve\s+(performance|accessibility|a11y)
   rcat [rstr "improve", sp, words1 ["performance", "accessibility", "a11y"]],
   -- fix\s+(accessibility|a11y|performance)\s+issues?
   rcat [rstr "fix", sp, words1 ["accessibility", "a11y", "performance"], sp,
     rstr "issue", .opt (rstr "s")]]

/-- Group `REFACTOR` (lines 93-106). -/
def refactorPatterns : List Regex :=
  [ -- refactor\s+(the\s+)?(\w+)
   rcat [rstr "refactor", sp, theOpt, wp],
   -- clean\s+up\s+(the\s+)?(\w+|code)
   rcat [rstr "clean", sp, rstr "up", sp, theOpt, ralts [wp, rstr "code"]],
   -- reorganize\s+(the\s+)?(\w+)
   rcat [rstr "reorganize", sp, theOpt, wp],
   -- restructure\s+(the\s+)?(\w+)
   rcat [rstr "restructure", sp, theOpt, wp],
   -- improve\s+(the\s+)?code\s+quality
   rcat [rstr "improve", sp, theOpt, rstr "code", sp, rstr "quality"],
   -- extract\s+(component|hook|utility|function)
   rcat [rstr "extract", sp, words1 ["component", "hook", "utility", "function"]],
   -- split\s+(the\s+)?(\w+)\s+into\s+smaller
   rcat [rstr "split", sp, theOpt, wp, sp, rstr "into", sp, rstr "smaller"]]

/-- Group `FULL_REBUILD` (lines 107-119). -/
def fullRebuildPatterns : List Regex :=
  [ -- start\s+over
   rcat [rstr "start", sp, rstr "over"],
   -- recreate\s+everything
   rcat [rstr "recreate", sp, rstr "everything"],
   -- rebuild\s+(the\s+)?(app|application|entire)
   rcat [rstr "rebuild", sp, theOpt, words1 ["app", "application", "entire"]],
   -- new\s+(app|application)
   rcat [rstr "new", sp, words1 ["app", "application"]],
   -- from\s+scratch
   rcat [rstr "from", sp, rstr "scratch"],
   -- completely\s+redesign
   rcat [rstr "completely", sp, rstr "redesign"]]

/-- Group `ADD_DEPENDENCY` (lines 120-131). -/
def addDependencyPatterns : List Regex :=
  [ -- install\s+(\w+)
   rcat [rstr "install", sp, wp],
   -- add\s+(\w+)\s+(package|library|dependency)
   rcat [rstr "add", sp, wp, sp, words1 ["package", "library", "dependency"]],
   -- use\s+(\w+)\s+(library|framework|package)
   rcat [rstr "use", sp, wp, sp, words1 ["library", "framework", "package"]],
   -- integrate\s+(\w+)
   rcat [rstr "integrate", sp, wp],
   -- import\s+(\w+)\s+(library|package)
   rcat [rstr "import", sp, wp, sp, words1 ["library", "package"]]]

/-- The UPDATE_STYLE group with its resolver. -/
def updateStyleGroup : IntentPattern :=
  { patterns := updateStylePatterns, type := .UPDATE_STYLE,
    fileResolver := fun p m => findStyleFiles p m }

/-- The UPDATE_COMPONENT group with its resolver. -/
def updateComponentGroup : IntentPattern :=
  { patterns := updateComponentPatterns, type := .UPDATE_COMPONENT,
    fileResolver := fun p m => findComponentByContent p m }

/-- The ADD_FEATURE group with its resolver. -/
def addFeatureGroup : IntentPattern :=
  { patterns := addFeaturePatterns, type := .ADD_FEATURE,
    fileResolver := fun p m => findFeatureInsertionPoints p m }

/-- The FIX_ISSUE group with its resolver. -/
def fixIssueGroup : IntentPattern :=
  { patterns := fixIssuePatterns, type := .FIX_ISSUE,
    fileResolver := fun p m => findProblemFiles p m }

/-- The REFACTOR group with its resolver. -/
def refactorGroup : IntentPattern :=
  { patterns := refactorPatterns, type := .REFACTOR,
    fileResolver := fun p m => findRefactorTargets p m }

/-- The FULL_REBUILD group with its resolver. -/
def fullRebuildGroup : IntentPattern :=
  { patterns := fullRebuildPatterns, type := .FULL_REBUILD,
    fileResolver := fun _ m => [m.entryPoint] }

/-- The ADD_DEPENDENCY group with its resolver. -/
def addDependencyGroup : IntentPattern :=
  { patterns := addDependencyPatterns, type := .ADD_DEPENDENCY,
    fileResolver := fun _ m => findPackageFiles m }

/-- The ordered pattern-group table (the `patterns` array literal of
`analyzeEditIntent`, lines 25-132; the array is rebuilt on every call in the
source, which is observationally the same as this constant). -/
def intentPatterns : List IntentPattern :=
  [updateStyleGroup, updateComponentGroup, addFeatureGroup, fixIssueGroup,
   refactorGroup, fullRebuildGroup, addDependencyGroup]

/-- Does some regex of the group match the prompt?  The source tests the
regexes of a group in list order and stops at the first match; since every
downstream consumer depends only on the group, the disjunction is the
faithful observable. -/
def groupMatches (g : IntentPattern) (prompt : String) : Bool :=
  g.patterns.any (fun r => jsTest r prompt)

/-- The double loop of `analyzeEditIntent` (lines 135-155): first group, in
table order, one of whose regexes matches the prompt. -/
def firstMatchingGroup (prompt : String) : List IntentPattern → Option IntentPattern
  | [] => none
  | g :: gs => if groupMatches g prompt then some g else firstMatchingGroup prompt gs

/-- Translation of `analyzeEditIntent` (edit-intent-analyzer.ts lines
18-166).  `classifyIntent` of the spec is this function. -/
def analyzeEditIntent (prompt : String) (manifest : FileManifest) : EditIntent :=
  match firstMatchingGroup prompt intentPatterns with
  | some g =>
    let targetFiles := g.fileResolver prompt manifest
    { type := g.type,
      targetFiles := targetFiles,
      confidence := calculateConfidence prompt g targetFiles,
      description := generateDescription g.type targetFiles,
      suggestedContext := getSuggestedContext targetFiles manifest }
  | none =>
    let defaultTargetFiles := [manifest.entryPoint]
    { type := .UPDATE_COMPONENT,
      targetFiles := defaultTargetFiles,
      confidence := (3 : ℚ)/10,
      description := "General update to application - no specific pattern matched",
      suggestedContext := getSuggestedContext defaultTargetFiles manifest }

/-! ### file-search-executor.ts: data model -/

/-- Component classification of a searched file. -/
inductive ComponentType where
  | page
  | layout
  | component
  | hook
  | utility
  deriving Repr, DecidableEq

/-- Element classification of a matched line (`importElem` renders the source
string `import`, which is a Lean keyword). -/
inductive ElementType where
  | jsx
  | style
  | importElem
  | state
  | function
  deriving Repr, DecidableEq

/-- Three-tier confidence of a match. -/
inductive Confidence where
  | high
  | medium
  | low
  deriving Repr, DecidableEq

/-- Search-type marker of the fallback ladder. -/
inductive SearchType where
  | exact
  | fuzzy
  | semantic
  deriving Repr, DecidableEq

/-- One search hit (the `SearchResult` interface, lines 8-19). -/
structure SearchResult where
  filePath : String
  lineNumber : Nat
  lineContent : String
  matchedTerm : Option String
  matchedPattern : Option String
  contextBefore : List String
  contextAfter : List String
  confidence : Confidence
  componentType : Option ComponentType
  elementType : Option ElementType
  deriving Repr, DecidableEq

/-- The nested `fallbackSearch` object of a plan (lines 30-33). -/
structure FallbackSearch where
  terms : List String
  patterns : Option (List String)
  deriving Repr, DecidableEq

/-- A search plan (the `SearchPlan` interface, lines 21-34).  Optional fields
are `Option`s; `executeSearchPlan` substitutes the same defaults the source
destructuring does. -/
structure SearchPlan where
  editType : String
  reasoning : String
  searchTerms : List String
  regexPatterns : Option (List String)
  fileTypesToSearch : Option (List String)
  expectedMatches : Option Nat
  priorityFiles : Option (List String)
  excludeFiles : Option (List String)
  fallbackSearch : Option FallbackSearch
  deriving Repr, DecidableEq

/-- Result of `executeSearchPlan` (the `SearchExecutionResult` interface,
lines 36-44).  `executionTime` is wall-clock time in the source; as the
specification makes no claim about it, it is modelled as the constant 0. -/
structure SearchExecutionResult where
  success : Bool
  results : List SearchResult
  filesSearched : Nat
  executionTime : Nat
  usedFallback : Bool
  searchType : SearchType
  error : Option String
  deriving Repr, DecidableEq

/-! ### Parsing caller-supplied regex pattern strings

`executeSearchPlan` builds `new RegExp(pattern, 'i')` from plan-supplied
strings and catches the exception a malformed pattern throws.  The model
parses the pattern string into the `Regex` AST; `none` plays the role of the
thrown exception.  The grammar covers literals, `.`, `^`, `$`, escapes,
bracket classes, groups `( )` `(?: )` `(?! )` `(?= )`, alternation and the
`* + ?` quantifiers with lazy variants; constructs beyond that (for example
brace quantifiers treated literally by this parser, or backreferences, which
it rejects) are noted deviations that no theorem of this file evaluates. -/

/-- Parse one escape character (after a backslash) outside a bracket class. -/
def parseEscape (c : Char) : Option Regex :=
  if c == 'w' then some (.cls .wordc)
  else if c == 'W' then some (.cls (.set true [.wItem]))
  else if c == 's' then some (.cls .spacec)
  else if c == 'S' then some (.cls (.set true [.sItem]))
  else if c == 'd' then some (.cls .digitc)
  else if c == 'D' then some (.cls (.set true [.dItem]))
  else if c == 'b' then some .wordB
  else if c == 'B' then some .notWordB
  else if c == 'n' then some (litR '\n')
  else if c == 't' then some (litR '\t')
  else if c == 'r' then some (litR '\r')
  else if c.isDigit then none
  else some (litR c)

/-- Parse one escape inside a bracket class. -/
def parseClassEscape (c : Char) : Option ClsItem :=
  if c == 'w' then some .wItem
  else if c == 's' then some .sItem
  else if c == 'd' then some .dItem
  else if c == 'n' then some (.ch '\n')
  else if c == 't' then some (.ch '\t')
  else if c == 'r' then some (.ch '\r')
  else if c.isDigit then none
  else some (.ch c)

/-- Parse the items of a bracket class up to the closing `]`. -/
def parseClassItems : Nat → List Char → Option (List ClsItem × List Char)
  | 0, _ => none
  | _, [] => none
  | f + 1, c :: cs =>
    if c == ']' then some ([], cs)
    else if c == '\\' then
      match cs with
      | [] => none
      | e :: cs' =>
        match parseClassEscape e with
        | none => none
        | some it =>
          match parseClassItems f cs' with
          | none => none
          | some (its, rest) => some (it :: its, rest)
    else
      match cs with
      | '-' :: hi :: cs' =>
        if hi == ']' then
          -- a trailing "-]" makes the dash a literal
          some ([.ch c, .ch '-'], cs')
        else
          match parseClassItems f cs' with
          | none => none
          | some (its, rest) => some (.range c hi :: its, rest)
      | _ =>
        match parseClassItems f cs with
        | none => none
        | some (its, rest) => some (.ch c :: its, rest)

/-- Apply a postfix quantifier (and its lazy variant) to a parsed atom. -/
def applyQuant (a : Regex) : List Char → Regex × List Char
  | '*' :: '?' :: cs => (.lazyStar a, cs)
  | '*' :: cs => (.star a, cs)
  | '+' :: '?' :: cs => (lazyPlus a, cs)
  | '+' :: cs => (rplus a, cs)
  | '?' :: '?' :: cs => (.opt a, cs)
  | '?' :: cs => (.opt a, cs)
  | cs => (a, cs)

mutual

/-- Parse an alternation (the whole grammar level). -/
def parseAltLevel : Nat → Nat → List Char → Option (Regex × Nat × List Char)
  | 0, _, _ => none
  | f + 1, gn, cs =>
    match parseCatLevel f gn cs with
    | none => none
    | some (r, gn', rest) =>
      match rest with
      | '|' :: rest' =>
        match parseAltLevel f gn' rest' with
        | none => none
        | some (r2, gn'', rest'') => some (.alt r r2, gn'', rest'')
      | _ => some (r, gn', rest)

/-- Parse a concatenation of quantified atoms, stopping at `|`, `)` or the
end of the pattern. -/
def parseCatLevel : Nat → Nat → List Char → Option (Regex × Nat × List Char)
  | 0, _, _ => none
  | f + 1, gn, cs =>
    match cs with
    | [] => some (.eps, gn, [])
    | ')' :: _ => some (.eps, gn, cs)
    | '|' :: _ => some (.eps, gn, cs)
    | _ =>
      match parseAtom f gn cs with
      | none => none
      | some (a, gn', rest) =>
        let (a', rest') := applyQuant a rest
        match parseCatLevel f gn' rest' with
        | none => none
        | some (r2, gn'', rest'') => some (.seq a' r2, gn'', rest'')

/-- Parse one atom. -/
def parseAtom : Nat → Nat → List Char → Option (Regex × Nat × List Char)
  | 0, _, _ => none
  | f + 1, gn, cs =>
    match cs with
    | [] => none
    | '(' :: '?' :: ':' :: cs' =>
      match parseAltLevel f gn cs' with
      | some (r, gn', ')' :: rest) => some (r, gn', rest)
      | _ => none
    | '(' :: '?' :: '!' :: cs' =>
      match parseAltLevel f gn cs' with
      | some (r, gn', ')' :: rest) => some (.nla r, gn', rest)
      | _ => none
    | '(' :: '?' :: '=' :: cs' =>
      -- positive lookahead encoded as a double negative lookahead
      match parseAltLevel f gn cs' with
      | some (r, gn', ')' :: rest) => some (.nla (.nla r), gn', rest)
      | _ => none
    | '(' :: '?' :: _ => none
    | '(' :: cs' =>
      match parseAltLevel f (gn + 1) cs' with
      | some (r, gn', ')' :: rest) => some (.grp gn r, gn', rest)
      | _ => none
    | ')' :: _ => none
    | '|' :: _ => none
    | '*' :: _ => none
    | '+' :: _ => none
    | '?' :: _ => none
    | '[' :: '^' :: cs' =>
      match parseClassItems (cs'.length + 1) cs' with
      | none => none
      | some (its, rest) => some (.cls (.set true its), gn, rest)
    | '[' :: cs' =>
      match parseClassItems (cs'.length + 1) cs' with
      | none => none
      | some (its, rest) => some (.cls (.set false its), gn, rest)
    | '\\' :: e :: cs' =>
      match parseEscape e with
      | none => none
      | some r => some (r, gn, cs')
    | '\\' :: [] => none
    | '.' :: cs' => some (.cls .anyc, gn, cs')
    | '^' :: cs' => some (.bol, gn, cs')
    | '$' :: cs' => some (.eol, gn, cs')
    | c :: cs' => some (litR c, gn, cs')

end

/-- Parse a caller-supplied pattern string, as `new RegExp(pattern, 'i')`
does; `none` models the exception thrown on a malformed pattern. -/
def parseJsRegex (pattern : String) : Option Regex :=
  match parseAltLevel (4 * pattern.length + 8) 1 pattern.data with
  | some (r, _, []) => some r
  | _ => none

/-! ### file-search-executor.ts: classification helpers -/

/-- Translation of `determineComponentType` (lines 49-80).  `fileName` in the
source is the whole lowercased path; `fileName.match(/\.(jsx|tsx)$/)` is
rendered as the two `endsWith` tests it performs. -/
def determineComponentType (filePath content : String) : ComponentType :=
  let fileName := jsToLower filePath
  if jsIncludes fileName "/pages/" || jsIncludes fileName "/app/" ||
      jsIncludes fileName "page." || jsIncludes fileName "route." then
    .page
  else if jsIncludes fileName "layout" || jsIncludes fileName "header" ||
      jsIncludes fileName "footer" || jsIncludes fileName "sidebar" then
    .layout
  else if jsStartsWith fileName "use" || jsIncludes content "function use" then
    .hook
  else if jsIncludes fileName "/utils/" || jsIncludes fileName "/lib/" ||
      jsIncludes fileName "/helpers/" ||
      !(jsEndsWith fileName ".jsx" || jsEndsWith fileName ".tsx") then
    .utility
  else
    .component

/-- Function-signature regex of `determineElementType`: `/\w+\s*\([^)]*\)\s*{/`. -/
def funcSigRe : Regex :=
  rcat [wp, spStar, litR '(', .star (.cls (.set true [.ch ')'])), litR ')', spStar, litR '{']

/-- Translation of `determineElementType` (lines 85-133). -/
def determineElementType (line : String) (lineIndex : Nat) (lines : List String) :
    Option ElementType :=
  if jsIncludes line "<" && jsIncludes line ">" then some .jsx
  else if jsIncludes line "className" || jsIncludes line "style=" ||
      jsIncludes line "tw`" || jsIncludes line "css`" then some .style
  else if jsIncludes line "import " || jsIncludes line "require(" then some .importElem
  else if jsIncludes line "useState" || jsIncludes line "useReducer" ||
      jsIncludes line "const [" || jsIncludes line "this.state" then some .state
  else if jsIncludes line "function " || jsIncludes line "=>" ||
      jsIncludes line "method" || jsTest funcSigRe line then some .function
  else
    -- lines.slice(max(0, i-2), i) ++ lines.slice(i+1, min(len, i+3))
    let surroundingLines :=
      ((lines.drop (lineIndex - 2)).take (lineIndex - (lineIndex - 2))) ++
      ((lines.drop (lineIndex + 1)).take 2)
    if surroundingLines.any (fun l => jsIncludes l "<" && jsIncludes l ">") then some .jsx
    else if surroundingLines.any (fun l => jsIncludes l "className") then some .style
    else none

/-! ### file-search-executor.ts: `executeSearchPlan` -/

/-- Splitting a file into lines: `content.split('\n')`. -/
def splitLines (content : String) : List String := jsSplitChar content '\n'

/-- Test of one plan-supplied pattern string against a line: parse failure
(the caught exception of the source, lines 207-216) counts as no match. -/
def patTest (pattern line : String) : Bool :=
  match parseJsRegex pattern with
  | some r => jsTest r line
  | none => false

/-- Confidence scoring of one match (lines 228-252), written as the source's
sequence of reassignments: a base score from the line text, then the
page/layout override, then the jsx/style floor. -/
def scoreConfidence (line : String) (mTerm mPat : Option String)
    (contextAfter : List String) (ct : ComponentType) (et : Option ElementType) :
    Confidence :=
  let c1 : Confidence :=
    if jsIncludes line "function" && jsIncludes line "export default" then .high
    else if jsIncludes line "className" && (jsIncludes line "bg-" || jsIncludes line "text-")
      then .high
    else if jsIncludes line "return" && contextAfter.any (fun l => jsIncludes l "<") then .high
    else if (match mTerm with | some t => jsIncludes line t | none => false) then .high
    else if mPat.isSome then .medium
    else .medium
  let c2 := if ct == .page || ct == .layout then .high else c1
  if et == some .jsx || et == some .style then
    (if c2 != .high then .medium else c2)
  else c2

/-- Assemble the `SearchResult` pushed for a matching line (lines 220-265). -/
def mkSearchResult (filePath : String) (lines : List String) (ct : ComponentType)
    (i : Nat) (line : String) (mTerm mPat : Option String) : SearchResult :=
  let et := determineElementType line i lines
  let contextBefore := (lines.drop (i - 5)).take (i - (i - 5))
  let contextAfter := (lines.drop (i + 1)).take 5
  { filePath := filePath,
    lineNumber := i + 1,
    lineContent := jsTrim line,
    matchedTerm := mTerm,
    matchedPattern := mPat,
    contextBefore := contextBefore,
    contextAfter := contextAfter,
    confidence := scoreConfidence line mTerm mPat contextAfter ct et,
    componentType := some ct,
    elementType := et }

/-- Per-line matching (lines 188-218): first matching term (case-insensitive
substring), else — when a pattern list was passed — first pattern string that
parses and matches; invalid patterns are skipped. -/
def lineResult (terms : List String) (pats : Option (List String)) (filePath : String)
    (lines : List String) (ct : ComponentType) (i : Nat) (line : String) :
    Option SearchResult :=
  let mTerm := terms.find? (fun t => jsIncludes (jsToLower line) (jsToLower t))
  let mPat :=
    match mTerm with
    | some _ => none
    | none =>
      match pats with
      | some ps => ps.find? (fun q => patTest q line)
      | none => none
  if mTerm.isSome || mPat.isSome then
    some (mkSearchResult filePath lines ct i line mTerm mPat)
  else none

/-- All results of one file, in line order. -/
def searchFile (terms : List String) (pats : Option (List String))
    (filePath content : String) : List SearchResult :=
  let lines := splitLines content
  let ct := determineComponentType filePath content
  lines.enum.filterMap (fun p => lineResult terms pats filePath lines ct p.1 p.2)

/-- Does the path match some priority entry (line 164)? -/
def isPriorityPath (priorityFiles : List String) (p : String) : Bool :=
  priorityFiles.any (fun q => jsIncludes p q)

/-- The file comparator of lines 163-170 as a total boolean preorder for a
stable sort: `cmp a b <= 0` for the source's -1/0/1 comparator. -/
def prioLe (priorityFiles : List String) (a b : String × String) : Bool :=
  isPriorityPath priorityFiles a.1 || !isPriorityPath priorityFiles b.1

/-- The two `continue` guards of the file loop (lines 172-180): a file is
searched iff no exclude entry occurs in its path and its path ends in one of
the requested extensions. -/
def includeFile (excludeFiles fileTypes : List String) (p : String) : Bool :=
  !(excludeFiles.any (fun e => jsIncludes p e)) && fileTypes.any (fun ext => jsEndsWith p ext)

/-- Translation of the `performSearch` closure (lines 159-271): sort files so
priority paths come first (stable), drop excluded files and foreign
extensions, then scan every remaining file line by line.  Returns the result
list and the number of files searched (the closure's `filesSearched`
increment). -/
def performSearch (files : List (String × String))
    (priorityFiles excludeFiles fileTypes : List String)
    (terms : List String) (pats : Option (List String)) : List SearchResult × Nat :=
  let searched := (stableSort (prioLe priorityFiles) files).filter
    (fun e => includeFile excludeFiles fileTypes e.1)
  (searched.flatMap (fun e => searchFile terms pats e.1 e.2), searched.length)

/-- The fixed semantic synonym table (lines 293-301), in object-literal order. -/
def semanticAlternatives : List (String × List String) :=
  [("header", ["navigation", "navbar", "nav", "appbar", "top"]),
   ("button", ["btn", "cta", "action", "link"]),
   ("footer", ["bottom", "copyright", "social"]),
   ("hero", ["banner", "jumbotron", "main", "landing"]),
   ("input", ["field", "form control", "textbox", "text field"]),
   ("modal", ["dialog", "popup", "overlay"]),
   ("card", ["panel", "box", "container", "item"])]

/-- Semantic expansion of the original search terms (lines 303-314). -/
def semanticTermsOf (terms : List String) : List String :=
  terms.flatMap (fun term =>
    let lowerTerm := jsToLower term
    semanticAlternatives.flatMap (fun ca =>
      if jsIncludes lowerTerm ca.1 then ca.2
      else if ca.2.any (fun alt => jsIncludes lowerTerm alt) then [ca.1]
      else []))

/-- Numeric confidence order of the result comparator (line 327). -/
def confidenceOrder : Confidence → Nat
  | .high => 3
  | .medium => 2
  | .low => 1

/-- Numeric component-type order of the result comparator (lines 332-339). -/
def componentTypeOrder : Option ComponentType → Nat
  | some .page => 5
  | some .layout => 4
  | some .component => 3
  | some .hook => 2
  | some .utility => 1
  | none => 0

/-- Numeric element-type order of the result comparator (lines 345-352). -/
def elementTypeOrder : Option ElementType → Nat
  | some .jsx => 4
  | some .style => 3
  | some .state => 2
  | some .function => 1
  | some .importElem => 0
  | none => 0

/-- The result comparator (lines 325-355). -/
def resultCmp (a b : SearchResult) : Int :=
  let cd : Int := (confidenceOrder b.confidence : Int) - (confidenceOrder a.confidence : Int)
  if cd ≠ 0 then cd
  else
    let td : Int :=
      (componentTypeOrder b.componentType : Int) - (componentTypeOrder a.componentType : Int)
    if td ≠ 0 then td
    else (elementTypeOrder b.elementType : Int) - (elementTypeOrder a.elementType : Int)

/-- Comparator as a boolean preorder for the stable sort. -/
def resultLe (a b : SearchResult) : Bool := decide (resultCmp a b ≤ 0)

/-- The default extension list of the plan destructuring (line 152). -/
def defaultFileTypes : List String := [".jsx", ".tsx", ".js", ".ts"]

/-- One tier of the ladder: `performSearch` with the plan's file filters. -/
def runTier (plan : SearchPlan) (files : List (String × String))
    (terms : List String) (pats : Option (List String)) : List SearchResult × Nat :=
  performSearch files (plan.priorityFiles.getD []) (plan.excludeFiles.getD [])
    (plan.fileTypesToSearch.getD defaultFileTypes) terms pats

/-- Accumulated state of the fallback ladder. -/
structure LadderState where
  results : List SearchResult
  filesSearched : Nat
  usedFallback : Bool
  searchType : SearchType
  deriving Repr, DecidableEq

/-- Primary tier (line 274): the plan's `searchTerms` with its
`regexPatterns` (destructured to `[]`, hence always passed). -/
def ladderPrimary (plan : SearchPlan) (files : List (String × String)) : LadderState :=
  let t1 := runTier plan files plan.searchTerms (some (plan.regexPatterns.getD []))
  ⟨t1.1, t1.2, false, .exact⟩

/-- Fuzzy tier (lines 277-285): only when the primary tier found nothing and
a `fallbackSearch` is present.  (The pure tier states are written without
`let`-sharing; recomputation is observationally irrelevant.) -/
def ladderAfterFallback (plan : SearchPlan) (files : List (String × String)) : LadderState :=
  if (ladderPrimary plan files).results.isEmpty then
    match plan.fallbackSearch with
    | some fb =>
      ⟨(ladderPrimary plan files).results ++ (runTier plan files fb.terms fb.patterns).1,
       (ladderPrimary plan files).filesSearched + (runTier plan files fb.terms fb.patterns).2,
       true, .fuzzy⟩
    | none => ladderPrimary plan files
  else ladderPrimary plan files

/-- Semantic tier (lines 288-320): whenever the results are still empty the
search type becomes `semantic`, and the expanded terms are searched when the
expansion is non-empty. -/
def ladderFinal (plan : SearchPlan) (files : List (String × String)) : LadderState :=
  if (ladderAfterFallback plan files).results.isEmpty then
    if (semanticTermsOf plan.searchTerms).isEmpty then
      ⟨(ladderAfterFallback plan files).results, (ladderAfterFallback plan files).filesSearched,
       (ladderAfterFallback plan files).usedFallback, .semantic⟩
    else
      ⟨(ladderAfterFallback plan files).results ++
         (runTier plan files (semanticTermsOf plan.searchTerms) none).1,
       (ladderAfterFallback plan files).filesSearched +
         (runTier plan files (semanticTermsOf plan.searchTerms) none).2,
       (ladderAfterFallback plan files).usedFallback, .semantic⟩
  else ladderAfterFallback plan files

/-- Translation of `executeSearchPlan` (lines 139-366). -/
def executeSearchPlan (plan : SearchPlan) (files : List (String × String)) :
    SearchExecutionResult :=
  { success := !(stableSort resultLe (ladderFinal plan files).results).isEmpty,
    results := stableSort resultLe (ladderFinal plan files).results,
    filesSearched := (ladderFinal plan files).filesSearched,
    executionTime := 0,
    usedFallback := (ladderFinal plan files).usedFallback,
    searchType := (ladderFinal plan files).searchType,
    error := if (stableSort resultLe (ladderFinal plan files).results).isEmpty then
        some "No matches found for search terms"
      else none }

/-! ### file-search-executor.ts: `selectTargetFile` -/

/-- The `{filePath, lineNumber, reason}` selection returned to callers. -/
structure TargetSelection where
  filePath : String
  lineNumber : Nat
  reason : String
  deriving Repr, DecidableEq

/-- Style-element match in a component file (lines 462-464). -/
def styleElemJsx (r : SearchResult) : Bool :=
  r.elementType == some .style && (jsEndsWith r.filePath ".jsx" || jsEndsWith r.filePath ".tsx")

/-- Printed form of a confidence tier, for the default reason string. -/
def confidenceStr : Confidence → String
  | .high => "high"
  | .medium => "medium"
  | .low => "low"

/-- Printed form of `best.componentType || 'component'`. -/
def componentTypeStr : Option ComponentType → String
  | some .page => "page"
  | some .layout => "layout"
  | some .component => "component"
  | some .hook => "hook"
  | some .utility => "utility"
  | none => "component"

/-- Printed form of `best.elementType || 'code'`. -/
def elementTypeStr : Option ElementType → String
  | some .jsx => "jsx"
  | some .style => "style"
  | some .importElem => "import"
  | some .state => "state"
  | some .function => "function"
  | none => "code"

/-- Translation of `selectTargetFile` (lines 453-542): the early-return
blocks become an `Option` chain ending in the highest-ranked result. -/
def selectTargetFile (results : List SearchResult) (editType : String) :
    Option TargetSelection :=
  match results with
  | [] => none
  | best :: _ =>
    let styleSel : Option TargetSelection :=
      if editType = "UPDATE_STYLE" then
        ((results.find? styleElemJsx).map (fun r =>
          ⟨r.filePath, r.lineNumber, "Found component with Tailwind classes to update"⟩)).orElse
        (fun _ => (results.find? (fun r =>
            jsEndsWith r.filePath ".jsx" || jsEndsWith r.filePath ".tsx")).map (fun r =>
          ⟨r.filePath, r.lineNumber, "Found component that likely contains styles to update"⟩))
      else none
    let removeSel : Option TargetSelection :=
      if editType = "REMOVE_ELEMENT" || jsIncludes editType "DELETE" then
        ((results.find? (fun r => r.elementType == some .jsx)).map (fun r =>
          ⟨r.filePath, r.lineNumber, "Found JSX element to remove in component"⟩)).orElse
        (fun _ => (results.find? (fun r =>
            jsIncludes r.lineContent "return" ||
              r.contextAfter.any (fun line => jsIncludes line "<"))).map (fun r =>
          ⟨r.filePath, r.lineNumber,
            "Found component render method containing element to remove"⟩))
      else none
    let featureSel : Option TargetSelection :=
      if editType = "ADD_FEATURE" then
        ((results.find? (fun r => r.componentType == some .page)).map (fun r =>
          ⟨r.filePath, r.lineNumber, "Found page component where feature should be added"⟩)).orElse
        (fun _ => (results.find? (fun r => r.componentType == some .layout)).map (fun r =>
          ⟨r.filePath, r.lineNumber, "Found layout component where feature should be added"⟩))
      else none
    (styleSel.orElse (fun _ => removeSel)).orElse (fun _ => featureSel) |>.orElse (fun _ =>
      some ⟨best.filePath, best.lineNumber,
        "Highest confidence match (" ++ confidenceStr best.confidence ++ ") in " ++
          componentTypeStr best.componentType ++ " " ++ elementTypeStr best.elementType⟩)

/-! ### Concrete fixtures used by counterexamples and witnesses -/

/-- A one-file manifest without package configuration files. -/
def sampleManifest : FileManifest :=
  { entryPoint := "src/App.jsx",
    files := [("src/App.jsx", { content := "", lastModified := 0, componentInfo := none })],
    styleFiles := [] }

/-! ### Lemmas about the intent classifier -/

/-- Deduplication of a non-empty list is non-empty. -/
theorem dedupFirst_ne_nil {l : List String} (h : l ≠ []) : dedupFirst l ≠ [] := by
  cases l with
  | nil => exact absurd rfl h
  | cons x xs => simp [dedupFirst, dedupFirstAux]

/-- The tail of `findComponentFiles` never yields the empty list. -/
theorem findComponentFilesFinalize_ne_nil (ep : String) (l : List String)
    (u : Option String) : findComponentFilesFinalize ep l u ≠ [] := by
  unfold findComponentFilesFinalize
  rcases l with _ | ⟨x, xs⟩ <;> rcases u with _ | path <;> simp

/-- The component-name resolver always returns at least one path. -/
theorem findComponentFiles_ne_nil (p : String) (m : FileManifest) :
    findComponentFiles p m ≠ [] := by
  unfold findComponentFiles
  exact findComponentFilesFinalize_ne_nil _ _ _

/-- The style resolver always returns at least one path. -/
theorem findStyleFiles_ne_nil (p : String) (m : FileManifest) :
    findStyleFiles p m ≠ [] := by
  unfold findStyleFiles
  simp [findComponentFiles_ne_nil p m]

/-- The component-by-content resolver always returns at least one path. -/
theorem findComponentByContent_ne_nil (p : String) (m : FileManifest) :
    findComponentByContent p m ≠ [] := by
  unfold findComponentByContent
  split
  · exact findComponentFiles_ne_nil p m
  · simp

/-- The problem-file resolver always returns at least one path. -/
theorem findProblemFiles_ne_nil (p : String) (m : FileManifest) :
    findProblemFiles p m ≠ [] := by
  unfold findProblemFiles
  exact dedupFirst_ne_nil (by simp [findComponentFiles_ne_nil p m])

/-- A group returned by the table scan belongs to the table. -/
theorem firstMatchingGroup_mem {p : String} :
    ∀ {L : List IntentPattern} {g : IntentPattern},
      firstMatchingGroup p L = some g → g ∈ L := by
  intro L
  induction L with
  | nil => intro g h; simp [firstMatchingGroup] at h
  | cons a as ih =>
    intro g h
    by_cases hm : groupMatches a p
    · simp only [firstMatchingGroup, hm, if_pos, Option.some.injEq] at h
      simp [h]
    · simp only [firstMatchingGroup, hm, if_neg, Bool.false_eq_true] at h
      exact List.mem_cons_of_mem _ (ih h)

/-- The scan returns the group at index `k` when no earlier group matches and
group `k` does. -/
theorem firstMatchingGroup_of_take (p : String) :
    ∀ (L : List IntentPattern) (k : Nat) (hk : k < L.length),
      (∀ g ∈ L.take k, groupMatches g p = false) →
      groupMatches (L.get ⟨k, hk⟩) p = true →
      firstMatchingGroup p L = some (L.get ⟨k, hk⟩) := by
  intro L
  induction L with
  | nil => intro k hk; simp at hk
  | cons a as ih =>
    intro k hk htake hmatch
    cases k with
    | zero =>
      simp only [List.get] at hmatch
      simp [firstMatchingGroup, hmatch]
    | succ k' =>
      have ha : groupMatches a p = false := htake a (by simp)
      simp only [List.get] at hmatch ⊢
      rw [firstMatchingGroup, ha]
      simp only [Bool.false_eq_true, if_false]
      exact ih k' (Nat.lt_of_succ_lt_succ hk)
        (fun g hg => htake g (by simp [List.take_succ_cons]; right; exact hg)) hmatch

/-! ### Claim C1 -/

/-- Claim C1, counterexample: for the prompt `"install x"` (which is
classified `ADD_DEPENDENCY`) against a manifest without `package.json`,
`vite.config.js` or `tsconfig.json`, `analyzeEditIntent` returns an EMPTY
`targetFiles` list — no fallback to `[entryPoint]` happens once a pattern
group has matched. -/
theorem analyzeEditIntent_nonempty_targetFiles_counterexample :
    (analyzeEditIntent "install x" sampleManifest).type = EditType.ADD_DEPENDENCY ∧
    (analyzeEditIntent "install x" sampleManifest).targetFiles = [] := by
  constructor
  · decide
  · decide

/-- Claim C1 (amended): `analyzeEditIntent` always returns a type of the
closed `EditType` enumeration (enforced by the type of the embedding); when
no pattern group matches it falls back to `UPDATE_COMPONENT` with
`targetFiles = [entryPoint]`; and `targetFiles` can only be empty when the
matched group is `ADD_FEATURE` or `ADD_DEPENDENCY`, whose resolvers may
resolve nothing — for every other outcome `targetFiles` is non-empty. -/
theorem analyzeEditIntent_targetFiles_amended :
    ∀ (p : String) (m : FileManifest),
      (firstMatchingGroup p intentPatterns = none →
        (analyzeEditIntent p m).type = EditType.UPDATE_COMPONENT ∧
        (analyzeEditIntent p m).targetFiles = [m.entryPoint]) ∧
      ((analyzeEditIntent p m).targetFiles = [] →
        (analyzeEditIntent p m).type = EditType.ADD_FEATURE ∨
        (analyzeEditIntent p m).type = EditType.ADD_DEPENDENCY) := by
  intro p m
  constructor
  · intro h
    simp [analyzeEditIntent, h]
  · intro h
    rcases hg : firstMatchingGroup p intentPatterns with _ | g
    · simp [analyzeEditIntent, hg] at h
    · have hmem := firstMatchingGroup_mem hg
      simp only [intentPatterns, List.mem_cons, List.mem_singleton,
        List.not_mem_nil, or_false] at hmem
      rcases hmem with rfl | rfl | rfl | rfl | rfl | rfl | rfl
      · rw [analyzeEditIntent, hg] at h
        exact absurd h (findStyleFiles_ne_nil p m)
      · rw [analyzeEditIntent, hg] at h
        exact absurd h (findComponentByContent_ne_nil p m)
      · rw [analyzeEditIntent, hg]
        exact Or.inl rfl
      · rw [analyzeEditIntent, hg] at h
        exact absurd h (findProblemFiles_ne_nil p m)
      · rw [analyzeEditIntent, hg] at h
        exact absurd h (findComponentFiles_ne_nil p m)
      · rw [analyzeEditIntent, hg] at h
        simp [fullRebuildGroup] at h
      · rw [analyzeEditIntent, hg]
        exact Or.inr rfl

/-- Claim C1, witness: the amended theorem applied at the concrete empty
outcome of the counterexample input. -/
theorem analyzeEditIntent_targetFiles_amended_witness :
    (analyzeEditIntent "install x" sampleManifest).type = EditType.ADD_FEATURE ∨
    (analyzeEditIntent "install x" sampleManifest).type = EditType.ADD_DEPENDENCY :=
  (analyzeEditIntent_targetFiles_amended "install x" sampleManifest).2 (by decide)

/-! ### Claim C2 -/

/-- Claim C2: the pattern groups are arranged and tried strictly in the
order `UPDATE_STYLE`, `UPDATE_COMPONENT`, `ADD_FEATURE`, `FIX_ISSUE`,
`REFACTOR`, `FULL_REBUILD`, `ADD_DEPENDENCY`; the first group containing a
matching regex decides the returned type with no further groups tried; in
particular any prompt matching an `UPDATE_STYLE` pattern is classified
`UPDATE_STYLE` even when `UPDATE_COMPONENT` patterns would also match. -/
theorem analyzeEditIntent_group_priority :
    intentPatterns.map IntentPattern.type =
      [EditType.UPDATE_STYLE, EditType.UPDATE_COMPONENT, EditType.ADD_FEATURE,
       EditType.FIX_ISSUE, EditType.REFACTOR, EditType.FULL_REBUILD,
       EditType.ADD_DEPENDENCY] ∧
    (∀ (p : String) (m : FileManifest) (k : Nat) (hk : k < intentPatterns.length),
      (∀ g ∈ intentPatterns.take k, groupMatches g p = false) →
      groupMatches (intentPatterns.get ⟨k, hk⟩) p = true →
      (analyzeEditIntent p m).type = (intentPatterns.get ⟨k, hk⟩).type) ∧
    (∀ (p : String) (m : FileManifest),
      groupMatches updateStyleGroup p = true →
      (analyzeEditIntent p m).type = EditType.UPDATE_STYLE) := by
  refine ⟨rfl, ?_, ?_⟩
  · intro p m k hk htake hmatch
    have h := firstMatchingGroup_of_take p intentPatterns k hk htake hmatch
    simp [analyzeEditIntent, h]
  · intro p m h
    have hfirst : firstMatchingGroup p intentPatterns = some updateStyleGroup := by
      simp [intentPatterns, firstMatchingGroup, h]
    simp [analyzeEditIntent, hfirst, updateStyleGroup]

/-- Claim C2, witness: the spec's own example prompt is style-classified. -/
theorem analyzeEditIntent_group_priority_witness :
    (analyzeEditIntent "make the header blue" sampleManifest).type = EditType.UPDATE_STYLE :=
  analyzeEditIntent_group_priority.2.2 "make the header blue" sampleManifest (by decide)

/-! ### Claim C9 -/

/-- Claim C9: `analyzeEditIntent` is deterministic — two calls on identical
inputs give identical results in every field.  The embedding is a pure
function of `(prompt, manifest)`, faithfully so: the source reads no state
besides its arguments, uses no randomness, and never writes to the manifest
(its only effects are `console.log` calls). -/
theorem analyzeEditIntent_deterministic :
    ∀ (p : String) (m : FileManifest),
      analyzeEditIntent p m = analyzeEditIntent p m ∧
      (analyzeEditIntent p m).type = (analyzeEditIntent p m).type ∧
      (analyzeEditIntent p m).targetFiles = (analyzeEditIntent p m).targetFiles ∧
      (analyzeEditIntent p m).confidence = (analyzeEditIntent p m).confidence ∧
      (analyzeEditIntent p m).description = (analyzeEditIntent p m).description ∧
      (analyzeEditIntent p m).suggestedContext = (analyzeEditIntent p m).suggestedContext :=
  fun _ _ => ⟨rfl, rfl, rfl, rfl, rfl, rfl⟩

/-! ### Claim C6 -/

/-- Classification rule exactly as claim C6 words it: identical to the code
except that the hook test inspects the BASENAME (`'hook' if the basename
starts with 'use' ...`). -/
def componentTypeSpecC6 (filePath content : String) : ComponentType :=
  let fileName := jsToLower filePath
  if jsIncludes fileName "/pages/" || jsIncludes fileName "/app/" ||
      jsIncludes fileName "page." || jsIncludes fileName "route." then
    .page
  else if jsIncludes fileName "layout" || jsIncludes fileName "header" ||
      jsIncludes fileName "footer" || jsIncludes fileName "sidebar" then
    .layout
  else if jsStartsWith (basenameLower filePath) "use" || jsIncludes content "function use" then
    .hook
  else if jsIncludes fileName "/utils/" || jsIncludes fileName "/lib/" ||
      jsIncludes fileName "/helpers/" ||
      !(jsEndsWith fileName ".jsx" || jsEndsWith fileName ".tsx") then
    .utility
  else
    .component

/-- Classification rule as amended: the hook test inspects the whole
lowercased path (`fileName = filePath.toLowerCase()` in the source), so a
hook file inside a directory is NOT classified `hook` unless its full path
starts with `use` or its content contains `function use`. -/
def componentTypeSpecC6Amended (filePath content : String) : ComponentType :=
  let fileName := jsToLower filePath
  if jsIncludes fileName "/pages/" || jsIncludes fileName "/app/" ||
      jsIncludes fileName "page." || jsIncludes fileName "route." then
    .page
  else if jsIncludes fileName "layout" || jsIncludes fileName "header" ||
      jsIncludes fileName "footer" || jsIncludes fileName "sidebar" then
    .layout
  else if jsStartsWith fileName "use" || jsIncludes content "function use" then
    .hook
  else if jsIncludes fileName "/utils/" || jsIncludes fileName "/lib/" ||
      jsIncludes fileName "/helpers/" ||
      !(jsEndsWith fileName ".jsx" || jsEndsWith fileName ".tsx") then
    .utility
  else
    .component

/-- Claim C6, counterexample: for `components/useModal.jsx` the claimed rule
gives `hook` (its basename starts with `use`) but the code classifies it
`component`, because `fileName.startsWith('use')` tests the whole lowercased
path. -/
theorem determineComponentType_hook_counterexample :
    determineComponentType "components/useModal.jsx" "" = ComponentType.component ∧
    componentTypeSpecC6 "components/useModal.jsx" "" = ComponentType.hook := by
  constructor
  · decide
  · decide

/-- Claim C6 (amended): the componentType attached to search results follows
the claimed rule with the hook clause read on the whole lowercased path
instead of the basename. -/
theorem determineComponentType_amended :
    ∀ (filePath content : String),
      determineComponentType filePath content = componentTypeSpecC6Amended filePath content :=
  fun _ _ => rfl

/-! ### Lemmas about the content search engine -/

/-- Membership is invariant under stable insertion. -/
theorem mem_stableInsert {α : Type} {le : α → α → Bool} {x a : α} :
    ∀ {l : List α}, a ∈ stableInsert le x l ↔ a = x ∨ a ∈ l := by
  intro l
  induction l with
  | nil => simp [stableInsert]
  | cons y ys ih =>
    by_cases h : le x y
    · simp [stableInsert, h]
    · simp only [stableInsert, h, Bool.false_eq_true, if_false, List.mem_cons, ih]
      tauto

/-- Membership is invariant under the stable sort. -/
theorem mem_stableSort {α : Type} {le : α → α → Bool} {a : α} :
    ∀ {l : List α}, a ∈ stableSort le l ↔ a ∈ l := by
  intro l
  induction l with
  | nil => simp [stableSort]
  | cons x xs ih => simp [stableSort, mem_stableInsert, ih]

/-- An unparseable pattern never matches a line. -/
theorem patTest_of_parse_none {pt : String} (hp : parseJsRegex pt = none) (line : String) :
    patTest pt line = false := by
  simp [patTest, hp]

/-- Removing an element on which the predicate fails does not change `find?`. -/
theorem find?_append_middle_none {p : String → Bool} {x : String} (hx : p x = false)
    (l1 l2 : List String) : (l1 ++ x :: l2).find? p = (l1 ++ l2).find? p := by
  induction l1 with
  | nil =>
    simp only [List.nil_append]
    exact List.find?_cons_of_neg _ (by simp [hx])
  | cons a as ih =>
    by_cases ha : p a
    · simp only [List.cons_append, List.find?_cons_of_pos _ ha]
    · simp only [List.cons_append, List.find?_cons_of_neg _ ha, ih]

/-- Per-line matching is unchanged when an unparseable pattern is removed
from the pattern list. -/
theorem lineResult_skip_invalid {ps1 ps2 : List String} {pt : String}
    (hp : parseJsRegex pt = none) (terms : List String) (fp : String)
    (lines : List String) (ct : ComponentType) (i : Nat) (line : String) :
    lineResult terms (some (ps1 ++ pt :: ps2)) fp lines ct i line =
      lineResult terms (some (ps1 ++ ps2)) fp lines ct i line := by
  have hfind : (ps1 ++ pt :: ps2).find? (fun q => patTest q line) =
      (ps1 ++ ps2).find? (fun q => patTest q line) :=
    @find?_append_middle_none (fun q => patTest q line) pt
      (patTest_of_parse_none hp line) ps1 ps2
  simp only [lineResult, hfind]

/-- The search of one tier is unchanged when an unparseable pattern is removed. -/
theorem performSearch_skip_invalid {ps1 ps2 : List String} {pt : String}
    (hp : parseJsRegex pt = none) (files : List (String × String))
    (prio excl fts terms : List String) :
    performSearch files prio excl fts terms (some (ps1 ++ pt :: ps2)) =
      performSearch files prio excl fts terms (some (ps1 ++ ps2)) := by
  unfold performSearch searchFile
  simp only [lineResult_skip_invalid hp]

/-- Membership in the search output of one tier comes from some manifest
entry. -/
theorem mem_performSearch {files : List (String × String)}
    {prio excl fts terms : List String} {pats : Option (List String)} {r : SearchResult}
    (h : r ∈ (performSearch files prio excl fts terms pats).1) :
    ∃ fp content, (fp, content) ∈ files ∧ r ∈ searchFile terms pats fp content := by
  simp only [performSearch] at h
  rw [List.mem_flatMap] at h
  obtain ⟨e, he, hr⟩ := h
  rw [List.mem_filter] at he
  have hm : e ∈ files := (mem_stableSort).mp he.1
  exact ⟨e.1, e.2, by simpa using hm, hr⟩

/-- Membership in a tier run with the plan's filters. -/
theorem mem_runTier {plan : SearchPlan} {files : List (String × String)}
    {terms : List String} {pats : Option (List String)} {r : SearchResult}
    (h : r ∈ (runTier plan files terms pats).1) :
    ∃ fp content, (fp, content) ∈ files ∧ r ∈ searchFile terms pats fp content :=
  mem_performSearch h

/-- A result of one file comes from some line of that file. -/
theorem mem_searchFile {terms : List String} {pats : Option (List String)}
    {fp content : String} {r : SearchResult} (h : r ∈ searchFile terms pats fp content) :
    ∃ i line, (splitLines content).get? i = some line ∧
      lineResult terms pats fp (splitLines content)
        (determineComponentType fp content) i line = some r := by
  simp only [searchFile] at h
  rw [List.mem_filterMap] at h
  obtain ⟨p, hp, hlr⟩ := h
  rw [List.mem_enum_iff_get?] at hp
  exact ⟨p.1, p.2, hp, hlr⟩

/-- A line match produces exactly the record `mkSearchResult` builds. -/
theorem lineResult_shape {terms : List String} {pats : Option (List String)}
    {fp : String} {lines : List String} {ct : ComponentType} {i : Nat} {line : String}
    {r : SearchResult}
    (h : lineResult terms pats fp lines ct i line = some r) :
    ∃ mTerm mPat, r = mkSearchResult fp lines ct i line mTerm mPat := by
  simp only [lineResult] at h
  split at h
  · exact ⟨_, _, (Option.some.injEq _ _ ▸ h : _ = r).symm⟩
  · exact absurd h (by simp)

/-- Every result of the whole ladder comes from some tier. -/
theorem mem_ladderFinal {plan : SearchPlan} {files : List (String × String)}
    {r : SearchResult} (h : r ∈ (ladderFinal plan files).results) :
    ∃ terms pats, r ∈ (runTier plan files terms pats).1 := by
  have hfb : r ∈ (ladderAfterFallback plan files).results →
      ∃ terms pats, r ∈ (runTier plan files terms pats).1 := by
    intro h2
    unfold ladderAfterFallback at h2
    split at h2
    · split at h2
      · rename_i fb _
        rw [List.mem_append] at h2
        rcases h2 with h2 | h2
        · exact ⟨_, _, h2⟩
        · exact ⟨_, _, h2⟩
      · exact ⟨_, _, h2⟩
    · exact ⟨_, _, h2⟩
  unfold ladderFinal at h
  split at h
  · split at h
    · exact hfb h
    · rw [List.mem_append] at h
      rcases h with h | h
      · exact hfb h
      · exact ⟨_, _, h⟩
  · exact hfb h

/-- Every result returned by `executeSearchPlan` originates in a line match
of some searched file. -/
theorem mem_executeSearchPlan {plan : SearchPlan} {files : List (String × String)}
    {r : SearchResult} (h : r ∈ (executeSearchPlan plan files).results) :
    ∃ fp content, (fp, content) ∈ files ∧
      ∃ i line, (splitLines content).get? i = some line ∧
        ∃ mTerm mPat,
          r = mkSearchResult fp (splitLines content) (determineComponentType fp content)
                i line mTerm mPat := by
  have h' : r ∈ (ladderFinal plan files).results := by
    have : (executeSearchPlan plan files).results =
        stableSort resultLe (ladderFinal plan files).results := rfl
    rw [this] at h
    exact (mem_stableSort).mp h
  obtain ⟨terms, pats, ht⟩ := mem_ladderFinal h'
  obtain ⟨fp, content, hmem, hsf⟩ := mem_runTier ht
  obtain ⟨i, line, hline, hlr⟩ := mem_searchFile hsf
  obtain ⟨mTerm, mPat, hr⟩ := lineResult_shape hlr
  exact ⟨fp, content, hmem, i, line, hline, mTerm, mPat, hr⟩

/-- The page/layout override of the scoring chain always wins. -/
theorem scoreConfidence_page_layout (line : String) (mTerm mPat : Option String)
    (ctxAfter : List String) {ct : ComponentType}
    (h : ct = ComponentType.page ∨ ct = ComponentType.layout) (et : Option ElementType) :
    scoreConfidence line mTerm mPat ctxAfter ct et = .high := by
  rcases h with rfl | rfl <;> simp [scoreConfidence]

/-- The scoring chain never assigns the `low` tier. -/
theorem scoreConfidence_ne_low (line : String) (mTerm mPat : Option String)
    (ctxAfter : List String) (ct : ComponentType) (et : Option ElementType) :
    scoreConfidence line mTerm mPat ctxAfter ct et ≠ .low := by
  simp only [scoreConfidence]
  repeat' split
  all_goals simp_all

/-! ### Claim C3 -/

/-- The semantic tier never turns the fallback flag on or off. -/
theorem ladderFinal_usedFallback (plan : SearchPlan) (files : List (String × String)) :
    (ladderFinal plan files).usedFallback = (ladderAfterFallback plan files).usedFallback := by
  unfold ladderFinal
  split
  · split <;> rfl
  · rfl

/-- A plan whose only term matches nothing directly, with no fallback
search, against a file whose content the synonym table can still reach. -/
def planNavbar : SearchPlan :=
  { editType := "UPDATE_COMPONENT", reasoning := "", searchTerms := ["header"],
    regexPatterns := none, fileTypesToSearch := none, expectedMatches := none,
    priorityFiles := none, excludeFiles := none, fallbackSearch := none }

/-- The file set for the semantic-rescue counterexample. -/
def filesNavbar : List (String × String) := [("a.jsx", "const navbar = 1")]

/-- A plan and file set on which no tier of the ladder finds anything. -/
def planNoMatch : SearchPlan :=
  { editType := "UPDATE_COMPONENT", reasoning := "", searchTerms := ["zzz"],
    regexPatterns := none, fileTypesToSearch := none, expectedMatches := none,
    priorityFiles := none, excludeFiles := none, fallbackSearch := none }

/-- The file set for the no-match fixtures. -/
def filesNoMatch : List (String × String) := [("a.jsx", "x")]

/-- Claim C3, counterexample: the primary search for `"header"` matches
nothing and the plan has NO `fallbackSearch`, yet `executeSearchPlan`
succeeds — the semantic synonym tier runs unconditionally and finds
`navbar`.  This refutes both "returns success: false when the plan's terms
and patterns match nothing" and "the fallback ladder is attempted only if
fallbackSearch is present". -/
theorem executeSearchPlan_semantic_rescue_counterexample :
    (ladderPrimary planNavbar filesNavbar).results = [] ∧
    planNavbar.fallbackSearch = none ∧
    (executeSearchPlan planNavbar filesNavbar).success = true ∧
    (executeSearchPlan planNavbar filesNavbar).usedFallback = false ∧
    (executeSearchPlan planNavbar filesNavbar).searchType = SearchType.semantic := by
  refine ⟨by decide, rfl, by decide, by decide, by decide⟩

/-- Claim C3 (amended): when NO tier — primary, fuzzy (only present with a
`fallbackSearch`), or semantic expansion — matches, the result is
`success: false`, empty `results` and the fixed non-empty error string; a
later tier runs only when the prior tier's result set is exactly empty (a
non-empty primary tier is returned as-is, sorted, with `searchType` exact
and no fallback); and the fuzzy tier is entered exactly when the primary
tier is empty and a `fallbackSearch` is present — but the semantic tier is
attempted regardless of `fallbackSearch` whenever results are still empty. -/
theorem executeSearchPlan_ladder_amended :
    ∀ (plan : SearchPlan) (files : List (String × String)),
      ((executeSearchPlan plan files).results = [] →
        (executeSearchPlan plan files).success = false ∧
        (executeSearchPlan plan files).error = some "No matches found for search terms") ∧
      ((executeSearchPlan plan files).success = true ↔
        (executeSearchPlan plan files).results ≠ []) ∧
      ((ladderPrimary plan files).results ≠ [] →
        (executeSearchPlan plan files).results =
          stableSort resultLe (ladderPrimary plan files).results ∧
        (executeSearchPlan plan files).usedFallback = false ∧
        (executeSearchPlan plan files).searchType = SearchType.exact) ∧
      ((executeSearchPlan plan files).usedFallback = true ↔
        ((ladderPrimary plan files).results = [] ∧ plan.fallbackSearch.isSome = true)) := by
  intro plan files
  refine ⟨?_, ?_, ?_, ?_⟩
  · intro h
    have hmempty : stableSort resultLe (ladderFinal plan files).results = [] := h
    constructor
    · show (!(stableSort resultLe (ladderFinal plan files).results).isEmpty) = false
      rw [hmempty]; rfl
    · show (if (stableSort resultLe (ladderFinal plan files).results).isEmpty then
          some "No matches found for search terms" else none) = _
      rw [hmempty]
      rfl
  · show (!(stableSort resultLe (ladderFinal plan files).results).isEmpty) = true ↔
      stableSort resultLe (ladderFinal plan files).results ≠ []
    simp [List.isEmpty_iff]
  · intro h
    have hf : (ladderPrimary plan files).results.isEmpty = false :=
      List.isEmpty_eq_false.mpr h
    have hAf : ladderAfterFallback plan files = ladderPrimary plan files := by
      unfold ladderAfterFallback
      rw [hf]
      rfl
    have hFin : ladderFinal plan files = ladderPrimary plan files := by
      unfold ladderFinal
      rw [hAf, hf]
      rfl
    refine ⟨?_, ?_, ?_⟩
    · show stableSort resultLe (ladderFinal plan files).results = _
      rw [hFin]
    · show (ladderFinal plan files).usedFallback = false
      rw [hFin]; rfl
    · show (ladderFinal plan files).searchType = SearchType.exact
      rw [hFin]; rfl
  · rw [show (executeSearchPlan plan files).usedFallback =
        (ladderFinal plan files).usedFallback from rfl,
      ladderFinal_usedFallback]
    by_cases hp : (ladderPrimary plan files).results = []
    · have hp' : (ladderPrimary plan files).results.isEmpty = true :=
        List.isEmpty_iff.mpr hp
      cases hfb : plan.fallbackSearch with
      | none =>
        unfold ladderAfterFallback
        rw [hp', hfb]
        simp [hp, hfb]
        rfl
      | some fb =>
        unfold ladderAfterFallback
        rw [hp', hfb]
        simp [hp, hfb]
    · have hp' : (ladderPrimary plan files).results.isEmpty = false :=
        List.isEmpty_eq_false.mpr hp
      unfold ladderAfterFallback
      rw [hp']
      simp [hp]
      rfl

/-- Claim C3, witness: the amended no-match clause applied at a plan whose
every tier is empty. -/
theorem executeSearchPlan_ladder_amended_witness :
    (executeSearchPlan planNoMatch filesNoMatch).success = false ∧
    (executeSearchPlan planNoMatch filesNoMatch).error =
      some "No matches found for search terms" :=
  (executeSearchPlan_ladder_amended planNoMatch filesNoMatch).1 (by decide)

/-! ### Claim C4 -/

/-- Claim C4: `executeSearchPlan` is total (the embedding returns a plain
record for every plan and file mapping — no exceptional path exists); a
search with no matches reports failure as data, with an explanatory error
and empty results; and removing an unparseable regex pattern from
`regexPatterns` does not change the outcome at all — the invalid pattern is
individually skipped without aborting the remaining patterns or the search. -/
theorem executeSearchPlan_never_throws_and_skips_invalid :
    (∀ (plan : SearchPlan) (files : List (String × String)),
      (executeSearchPlan plan files).success = false →
        (executeSearchPlan plan files).results = [] ∧
        (executeSearchPlan plan files).error = some "No matches found for search terms") ∧
    (∀ (plan : SearchPlan) (files : List (String × String)) (ps1 ps2 : List String)
        (pt : String), parseJsRegex pt = none →
      executeSearchPlan { plan with regexPatterns := some (ps1 ++ pt :: ps2) } files =
        executeSearchPlan { plan with regexPatterns := some (ps1 ++ ps2) } files) := by
  constructor
  · intro plan files h
    have hb : (!(stableSort resultLe (ladderFinal plan files).results).isEmpty) = false := h
    have hempty : stableSort resultLe (ladderFinal plan files).results = [] := by
      rcases he : stableSort resultLe (ladderFinal plan files).results with _ | ⟨x, xs⟩
      · rfl
      · rw [he] at hb
        simp at hb
    constructor
    · exact hempty
    · show (if (stableSort resultLe (ladderFinal plan files).results).isEmpty then
          some "No matches found for search terms" else none) = _
      rw [hempty]
      rfl
  · intro plan files ps1 ps2 pt hp
    have hfin : ladderFinal { plan with regexPatterns := some (ps1 ++ pt :: ps2) } files =
        ladderFinal { plan with regexPatterns := some (ps1 ++ ps2) } files := by
      unfold ladderFinal ladderAfterFallback ladderPrimary runTier
      dsimp only [Option.getD]
      rw [performSearch_skip_invalid hp]
    show SearchExecutionResult.mk _ _ _ _ _ _ _ = SearchExecutionResult.mk _ _ _ _ _ _ _
    rw [hfin]

/-- Claim C4, witness: both clauses applied at concrete inputs — the
no-match plan, and the malformed pattern `"("` whose removal leaves the
outcome unchanged. -/
theorem executeSearchPlan_never_throws_and_skips_invalid_witness :
    ((executeSearchPlan planNoMatch filesNoMatch).results = [] ∧
      (executeSearchPlan planNoMatch filesNoMatch).error =
        some "No matches found for search terms") ∧
    executeSearchPlan { planNoMatch with regexPatterns := some ["("] } filesNoMatch =
      executeSearchPlan { planNoMatch with regexPatterns := some [] } filesNoMatch :=
  ⟨executeSearchPlan_never_throws_and_skips_invalid.1 planNoMatch filesNoMatch (by decide),
   executeSearchPlan_never_throws_and_skips_invalid.2 planNoMatch filesNoMatch [] [] "("
     (by decide)⟩

/-! ### Claims C5 and C10 -/

/-- Claim C5: a match inside a file whose componentType is `page` or
`layout` always carries confidence `high`, whatever the textual signals on
the line were. -/
theorem executeSearchPlan_page_layout_high_confidence :
    ∀ (plan : SearchPlan) (files : List (String × String)) (r : SearchResult),
      r ∈ (executeSearchPlan plan files).results →
      (r.componentType = some ComponentType.page ∨
        r.componentType = some ComponentType.layout) →
      r.confidence = Confidence.high := by
  intro plan files r hr hct
  obtain ⟨fp, content, _, i, line, _, mTerm, mPat, rfl⟩ := mem_executeSearchPlan hr
  simp only [mkSearchResult, Option.some.injEq] at hct
  simp only [mkSearchResult]
  exact scoreConfidence_page_layout _ _ _ _ hct _

/-- Claim C10: the `low` confidence tier is never assigned by
`executeSearchPlan` — scoring starts at `medium` and every rule only raises
it, so every result is `high` or `medium`. -/
theorem executeSearchPlan_no_low_confidence :
    ∀ (plan : SearchPlan) (files : List (String × String)) (r : SearchResult),
      r ∈ (executeSearchPlan plan files).results → r.confidence ≠ Confidence.low := by
  intro plan files r hr
  obtain ⟨fp, content, _, i, line, _, mTerm, mPat, rfl⟩ := mem_executeSearchPlan hr
  simp only [mkSearchResult]
  exact scoreConfidence_ne_low _ _ _ _ _ _

/-- A plan/file pair producing exactly one match, in a `/pages/` file. -/
def planHello : SearchPlan :=
  { editType := "UPDATE_COMPONENT", reasoning := "", searchTerms := ["hello"],
    regexPatterns := none, fileTypesToSearch := none, expectedMatches := none,
    priorityFiles := none, excludeFiles := none, fallbackSearch := none }

/-- The file set for the single-match fixtures. -/
def filesHello : List (String × String) := [("src/pages/home.jsx", "hello")]

/-- The single result of running `planHello` over `filesHello`. -/
def resHello : SearchResult :=
  { filePath := "src/pages/home.jsx", lineNumber := 1, lineContent := "hello",
    matchedTerm := some "hello", matchedPattern := none, contextBefore := [],
    contextAfter := [], confidence := .high, componentType := some .page,
    elementType := none }

/-- Claim C5, witness: the theorem applied at the concrete page-file match. -/
theorem executeSearchPlan_page_layout_high_confidence_witness :
    resHello ∈ (executeSearchPlan planHello filesHello).results ∧
      resHello.confidence = Confidence.high :=
  ⟨by decide,
   executeSearchPlan_page_layout_high_confidence planHello filesHello resHello (by decide)
     (Or.inl (by decide))⟩

/-- Claim C10, witness: the theorem applied at the concrete match. -/
theorem executeSearchPlan_no_low_confidence_witness :
    resHello.confidence ≠ Confidence.low :=
  executeSearchPlan_no_low_confidence planHello filesHello resHello (by decide)

/-! ### Claim C7 -/

/-- JavaScript `files[key]` on the `Record` model: the first binding. -/
def recordGet (files : List (String × String)) (key : String) : Option String :=
  (files.find? (fun e => e.1 == key)).map (·.2)

/-- With unique keys, any binding is the lookup result. -/
theorem recordGet_of_mem_nodup {files : List (String × String)} {fp content : String}
    (hnd : (files.map Prod.fst).Nodup) (hmem : (fp, content) ∈ files) :
    recordGet files fp = some content := by
  induction files with
  | nil => simp at hmem
  | cons e es ih =>
    rw [List.map_cons, List.nodup_cons] at hnd
    rw [List.mem_cons] at hmem
    rcases hmem with heq | hmem
    · rw [← heq, recordGet, List.find?_cons_of_pos _ (by simp)]
      rfl
    · have hfp : fp ∈ es.map Prod.fst := by
        exact List.mem_map_of_mem Prod.fst hmem
      have hne : ¬(e.1 == fp) = true := by
        simp only [beq_iff_eq]
        intro hcontra
        exact hnd.1 (hcontra ▸ hfp)
      rw [recordGet, @List.find?_cons_of_neg _ (fun x => x.1 == fp) e es hne]
      exact ih hnd.2 hmem

/-- Claim C7: every result's `lineContent` is the trimmed text of the
1-indexed line `lineNumber` of `files[filePath]`, splitting on newline.
(Unique record keys are assumed, as for a JavaScript object.) -/
theorem executeSearchPlan_lineContent_round_trip :
    ∀ (plan : SearchPlan) (files : List (String × String)) (r : SearchResult),
      (files.map Prod.fst).Nodup →
      r ∈ (executeSearchPlan plan files).results →
      ∃ content line,
        recordGet files r.filePath = some content ∧
        (splitLines content).get? (r.lineNumber - 1) = some line ∧
        r.lineContent = jsTrim line := by
  intro plan files r hnd hr
  obtain ⟨fp, content, hmem, i, line, hline, mTerm, mPat, rfl⟩ := mem_executeSearchPlan hr
  refine ⟨content, line, ?_, ?_, ?_⟩
  · simpa [mkSearchResult] using recordGet_of_mem_nodup hnd hmem
  · simpa [mkSearchResult] using hline
  · simp [mkSearchResult]

/-- Claim C7, witness: the theorem applied at the concrete match. -/
theorem executeSearchPlan_lineContent_round_trip_witness :
    ∃ content line,
      recordGet filesHello resHello.filePath = some content ∧
      (splitLines content).get? (resHello.lineNumber - 1) = some line ∧
      resHello.lineContent = jsTrim line :=
  executeSearchPlan_lineContent_round_trip planHello filesHello resHello (by decide) (by decide)

/-! ### Claim C8 -/

/-- A chain ending in an unconditional `some` is always `some`. -/
theorem orElse_some_isSome {α : Type} (o : Option α) (v : α) :
    (o.orElse (fun _ => some v)).isSome = true := by
  cases o <;> rfl

/-- Claim C8: `selectTargetFile` returns `null` exactly on an empty result
list, and for `UPDATE_STYLE` a style-element result in a `.jsx`/`.tsx` file
— the first such in ranked order — supplies the returned file and line, in
preference to every non-style result, including earlier, higher-confidence
ones. -/
theorem selectTargetFile_spec :
    (∀ editType : String, selectTargetFile [] editType = none) ∧
    (∀ (results : List SearchResult) (editType : String),
      results ≠ [] → (selectTargetFile results editType).isSome = true) ∧
    (∀ results : List SearchResult,
      (∃ r ∈ results, styleElemJsx r = true) →
      ∃ r0, results.find? styleElemJsx = some r0 ∧
        r0.elementType = some ElementType.style ∧
        selectTargetFile results "UPDATE_STYLE" =
          some ⟨r0.filePath, r0.lineNumber,
            "Found component with Tailwind classes to update"⟩) := by
  refine ⟨fun _ => rfl, ?_, ?_⟩
  · intro results editType hne
    match results with
    | [] => exact absurd rfl hne
    | best :: rest =>
      simp only [selectTargetFile]
      exact orElse_some_isSome _ _
  · intro results hex
    have hfind : (results.find? styleElemJsx).isSome = true :=
      List.find?_isSome.mpr hex
    obtain ⟨r0, hr0⟩ := Option.isSome_iff_exists.mp hfind
    have hstyle0 := List.find?_some hr0
    refine ⟨r0, hr0, ?_, ?_⟩
    · simp only [styleElemJsx, Bool.and_eq_true, beq_iff_eq] at hstyle0
      exact hstyle0.1
    · match results, hr0 with
      | best :: rest, hr0 =>
        simp [selectTargetFile, hr0, Option.orElse]

/-- A high-confidence non-style result ranked first. -/
def resJsxHigh : SearchResult :=
  { filePath := "src/components/Card.jsx", lineNumber := 3, lineContent := "<div>",
    matchedTerm := some "div", matchedPattern := none, contextBefore := [],
    contextAfter := [], confidence := .high, componentType := some .component,
    elementType := some .jsx }

/-- A lower-confidence style-element result ranked second. -/
def resStyleMedium : SearchResult :=
  { filePath := "src/components/Hero.jsx", lineNumber := 7,
    lineContent := "className=bg-blue-500", matchedTerm := none,
    matchedPattern := some "bg-", contextBefore := [], contextAfter := [],
    confidence := .medium, componentType := some .component,
    elementType := some .style }

/-- Claim C8, witness: with a higher-confidence jsx result ranked first, the
style selection still returns the style-element result. -/
theorem selectTargetFile_spec_witness :
    ∃ r0, [resJsxHigh, resStyleMedium].find? styleElemJsx = some r0 ∧
      r0.elementType = some ElementType.style ∧
      selectTargetFile [resJsxHigh, resStyleMedium] "UPDATE_STYLE" =
        some ⟨r0.filePath, r0.lineNumber, "Found component with Tailwind classes to update"⟩ :=
  selectTargetFile_spec.2.2 [resJsxHigh, resStyleMedium] (by decide)
